import Mathlib

/-!
Shallow embedding of the content-block-to-HTML renderer of
`src/post_archiver.py` (a Tumblr post archiver) and proofs about it.

Python dicts are modelled as structures whose optional keys are `Option`
fields; `d['k']` on a missing key raises, which is modelled by `Except Err`;
`d.get('k', v)` is `Option.getD`.  Python string truthiness (`if s:`) is
`truthyOpt`.  The poll side-channel HTTP call is modelled by an environment
function returning an abstract `HttpResult`; the `datetime` library calls of
the post assembler are abstracted into explicit function parameters.
-/

/-- Exceptions a rendering operation can raise (Python exception classes
that the embedded code paths can actually produce). -/
inductive Err where
  | keyError
  | indexError
  | attributeError
  | typeError
deriving DecidableEq, Repr

/-- `html.escape(s, quote=False)`: `&`, `<`, `>` are replaced by entities.
Python applies sequential `str.replace` with `&` first; that equals this
character-wise map. -/
def htmlEscape (s : String) : String :=
  String.join (s.data.map fun c =>
    if c = '&' then "&amp;"
    else if c = '<' then "&lt;"
    else if c = '>' then "&gt;"
    else String.singleton c)

/-- `html.escape(s, quote=True)`: additionally escapes `"` and the single
quote (written via its code point 39). -/
def htmlEscapeQ (s : String) : String :=
  String.join (s.data.map fun c =>
    if c = '&' then "&amp;"
    else if c = '<' then "&lt;"
    else if c = '>' then "&gt;"
    else if c = '"' then "&quot;"
    else if c = Char.ofNat 39 then "&#x27;"
    else String.singleton c)

/-- The left-arrow glyph `\U0001F850` used by the arrow substitution. -/
def leftArrowGlyph : String := String.singleton (Char.ofNat 0x1F850)

/-- The right-arrow glyph `\U0001F852` used by the arrow substitution. -/
def rightArrowGlyph : String := String.singleton (Char.ofNat 0x1F852)

/-- Replacement loop of Python `str.replace` for a nonempty pattern:
replace all non-overlapping occurrences left to right.  The fuel argument
(the input length) only serves structural termination: each step consumes
at least one character. -/
def replaceAllAux (pat repl : List Char) : Nat → List Char → List Char
  | 0, s => s
  | _ + 1, [] => []
  | n + 1, c :: rest =>
    if pat ≠ [] && pat.isPrefixOf (c :: rest) then
      repl ++ replaceAllAux pat repl n ((c :: rest).drop pat.length)
    else c :: replaceAllAux pat repl n rest

/-- Python `s.replace(pat, repl)` (for the nonempty patterns used here). -/
def pyReplace (s pat repl : String) : String :=
  String.mk (replaceAllAux pat.data repl.data s.data.length s.data)

/-- `text.replace("&lt;-", …).replace("-&gt;", …)` (lines 119, 176, 192, 319
of the source): substitute escaped arrows by glyphs. -/
def arrowSub (s : String) : String :=
  pyReplace (pyReplace s "&lt;-" leftArrowGlyph) "-&gt;" rightArrowGlyph

/-- Python whitespace characters stripped by `str.strip()` (the ASCII
ones, which cover the renderer's output). -/
def pySpace (c : Char) : Bool :=
  c = ' ' || c = '\t' || c = '\n' || c = '\r' || c = Char.ofNat 11 || c = Char.ofNat 12

/-- Python `s.strip()`. -/
def pyStrip (s : String) : String :=
  String.mk (((s.data.dropWhile pySpace).reverse.dropWhile pySpace).reverse)

/-- Python `s.rstrip('\n')`. -/
def rstripNl (s : String) : String :=
  String.mk ((s.data.reverse.dropWhile (fun c => c = '\n')).reverse)

/-- Python `str(x)` for `x` an optional integer: `str(None) = "None"`. -/
def pyStrOfOptNat : Option Nat → String
  | none => "None"
  | some n => toString n

/-- Python truthiness of an optional string (`None` and `""` are falsy). -/
def truthyOpt : Option String → Bool
  | none => false
  | some s => s ≠ ""

/-- Python slice `s[a:b]` (by code points). -/
def strSlice (s : String) (a b : Nat) : String :=
  String.mk ((s.data.drop a).take (b - a))

/-- Python slice `s[a:]`. -/
def strSliceFrom (s : String) (a : Nat) : String :=
  String.mk (s.data.drop a)

/-- Grouping step of Python `format(n, ',')`: insert a comma after every
three characters of the reversed digit string. -/
def group3 : List Char → List Char
  | a :: b :: c :: d :: rest => a :: b :: c :: ',' :: group3 (d :: rest)
  | l => l

/-- Python `f"{n:,}"` for a natural number: thousands separators. -/
def fmtThousands (n : Nat) : String :=
  String.mk ((group3 (toString n).data.reverse).reverse)

/-- Python `f"{n:,}"` for an integer. -/
def fmtThousandsInt (n : Int) : String :=
  if n < 0 then "-" ++ fmtThousands n.natAbs else fmtThousands n.natAbs

/-! ## JSON values and the poll-results HTTP call -/

/-- JSON values as returned by `response.json()` in the poll fetch. -/
inductive Json where
  | null
  | num (n : Int)
  | str (s : String)
  | arr (xs : List Json)
  | obj (kvs : List (String × Json))

/-- Outcome of `requests.get` on the poll-results URL: either some exception
was raised inside the `try` (network error, bad JSON, …) or a response with
a status code and a parsed JSON body was obtained. -/
inductive HttpResult where
  | raised
  | ok (status : Nat) (body : Json)

/-- The network environment: what the poll-results endpoint answers for a
given blog name, post id and poll client id. -/
def PollEnv : Type := String → String → String → HttpResult

/-- Python `dict` lookup on a JSON object (first binding wins). -/
def jLookup (kvs : List (String × Json)) (k : String) : Option Json :=
  match kvs.find? (fun kv => kv.1 == k) with
  | some kv => some kv.2
  | none => none

/-- Python `sum(votes_map.values())`: `none` when `votes_map` is not a dict
or some value is not an integer (those raise `AttributeError`/`TypeError`). -/
def jSumValues : Json → Option Int
  | Json.obj kvs =>
      kvs.foldl (fun acc kv =>
        match acc, kv.2 with
        | some a, Json.num v => some (a + v)
        | _, _ => none) (some 0)
  | _ => none

/-- Lines 154-171 of the source: the `try`-block of the poll-results fetch
together with its `except` handler.  Returns the pair
`(votes_map, total_votes)` as left behind by the Python code: every raise
inside the `try` is caught, but `votes_map` keeps whatever value was last
assigned to it — in particular a non-dict `results` payload survives into
`votes_map` when `sum(votes_map.values())` raises. -/
def fetchVotes (resp : HttpResult) : Json × Int :=
  match resp with
  | HttpResult.raised => (Json.obj [], 0)
  | HttpResult.ok status body =>
    if status = 200 then
      match body with
      | Json.obj kvs =>
        match (jLookup kvs "meta").getD (Json.obj []) with
        | Json.obj mkvs =>
          match jLookup mkvs "status" with
          | some (Json.num 200) =>
            match (jLookup kvs "response").getD (Json.obj []) with
            | Json.obj rkvs =>
              let votes_map := (jLookup rkvs "results").getD (Json.obj [])
              match jSumValues votes_map with
              | some tv => (votes_map, tv)
              | none => (votes_map, 0)
            | _ => (Json.obj [], 0)
          | _ => (Json.obj [], 0)
        | _ => (Json.obj [], 0)
      | _ => (Json.obj [], 0)
    else (Json.obj [], 0)

/-- Line 184: `votes_map.get(client_id, 0)`.  Raises `AttributeError`
when `votes_map` is not a dict; a `None` key is simply absent. -/
def votesGet (votes_map : Json) (client_id : Option String) : Except Err Json :=
  match votes_map with
  | Json.obj kvs =>
    match client_id with
    | some cid => Except.ok ((jLookup kvs cid).getD (Json.num 0))
    | none => Except.ok (Json.num 0)
  | _ => Except.error Err.attributeError

/-! ## Percentage display -/

/-- Round-half-to-even, the rounding performed by Python `f"{x:.0f}"` on an
exactly representable value. -/
def roundHalfEven (q : ℚ) : Int :=
  if q - (⌊q⌋ : ℚ) < 1/2 then ⌊q⌋
  else if q - (⌊q⌋ : ℚ) > 1/2 then ⌊q⌋ + 1
  else if ⌊q⌋ % 2 = 0 then ⌊q⌋ else ⌊q⌋ + 1

/-- Lines 187-189: `percentage = 0.0; if total_votes > 0: percentage =
(votes / total_votes) * 100`, over exact rationals. -/
def pollPercentage (votes total : Int) : ℚ :=
  if total > 0 then ((votes : ℚ) / (total : ℚ)) * 100 else 0

/-- Round-half-to-even of the fraction `a / b` (for `b > 0`), in integer
arithmetic. -/
def roundHalfEvenFrac (a b : Int) : Int :=
  if 2 * (a - Int.fdiv a b * b) < b then Int.fdiv a b
  else if 2 * (a - Int.fdiv a b * b) > b then Int.fdiv a b + 1
  else if Int.fdiv a b % 2 = 0 then Int.fdiv a b else Int.fdiv a b + 1

/-- The integer displayed by every `{percentage:.0f}` format of a poll
answer: the rounded value of `(votes / total) * 100`. -/
def pctDisplay (votes total : Int) : Int :=
  if total > 0 then roundHalfEvenFrac (votes * 100) total else 0

/-! ## Data model (dict-shaped API records) -/

/-- A raw formatting entry: the Python code subscripts `fmt['start']`,
`fmt['end']`, `fmt['type']` (raising `KeyError` when absent) and uses
`fmt.get('url', '#')`. -/
structure RawSpan where
  start : Option Nat := none
  end_ : Option Nat := none
  type : Option String := none
  url : Option String := none
deriving DecidableEq, Repr

/-- A formatting span whose required keys are all present. -/
structure Span where
  start : Nat
  end_ : Nat
  type : String
  url : Option String := none
deriving DecidableEq, Repr

/-- One entry of a block's `media` list. -/
structure MediaItem where
  url : Option String := none
deriving DecidableEq, Repr

/-- One entry of a poll block's `answers` list. -/
structure PollAnswer where
  answer_text : Option String := none
  client_id : Option String := none
deriving DecidableEq, Repr

/-- A content block (the dict keys the renderer accesses). -/
structure Block where
  type : Option String := none
  subtype : Option String := none
  text : Option String := none
  formatting : Option (List RawSpan) := none
  media : Option (List MediaItem) := none
  alt_text : Option String := none
  question : Option String := none
  answers : Option (List PollAnswer) := none
  client_id : Option String := none
deriving DecidableEq, Repr

/-- Reading the required keys of a formatting entry (line 102):
`fmt['start'], fmt['end'], fmt['type']`. -/
def readSpan (f : RawSpan) : Except Err Span :=
  match f.start, f.end_, f.type with
  | some s, some e, some t => Except.ok { start := s, end_ := e, type := t, url := f.url }
  | _, _, _ => Except.error Err.keyError

/-- Reading all formatting entries in order; the first missing key raises. -/
def validateSpans : List RawSpan → Except Err (List Span)
  | [] => Except.ok []
  | f :: rest =>
    match readSpan f with
    | Except.error e => Except.error e
    | Except.ok s =>
      match validateSpans rest with
      | Except.error e => Except.error e
      | Except.ok l => Except.ok (s :: l)

/-! ## The span formatter (lines 100-119) -/

/-- `fmt_type in tags` (line 106): the recognized formatting kinds. -/
def recognizedType (t : String) : Bool :=
  t = "bold" || t = "italic" || t = "small" || t = "strikethrough" || t = "link"

/-- The open-tag string of the `tags` table (lines 104-105). -/
def openTagOf (s : Span) : String :=
  if s.type = "bold" then "<strong>"
  else if s.type = "italic" then "<em>"
  else if s.type = "small" then "<small>"
  else if s.type = "strikethrough" then "<s>"
  else "<a href=\"" ++ htmlEscapeQ (s.url.getD "#") ++ "\">"

/-- The close-tag string of the `tags` table. -/
def closeTagOf (s : Span) : String :=
  if s.type = "bold" then "</strong>"
  else if s.type = "italic" then "</em>"
  else if s.type = "small" then "</small>"
  else if s.type = "strikethrough" then "</s>"
  else "</a>"

/-- `markers[o].append(a)` on an offset-indexed bucket map. -/
def addOpenMark {α : Type} (m : Nat → List α) (o : Nat) (a : α) : Nat → List α :=
  fun k => if k = o then m k ++ [a] else m k

/-- `markers[o].insert(0, a)`. -/
def addCloseMark {α : Type} (m : Nat → List α) (o : Nat) (a : α) : Nat → List α :=
  fun k => if k = o then a :: m k else m k

/-- One loop iteration of lines 101-108 over an (index, span) pair:
append the open marker at `start`, insert the close marker at the front of
the `end` bucket, provided the kind is recognized. -/
def spanStep {α : Type} (f g : Nat × Span → α) (m : Nat → List α) (p : Nat × Span) :
    Nat → List α :=
  if recognizedType p.2.type then
    addCloseMark (addOpenMark m p.2.start (f p)) p.2.end_ (g p)
  else m

/-- The bucket map built by the full loop, generic in the marker payload. -/
def markersAux {α : Type} (f g : Nat × Span → α) (l : List (Nat × Span)) : Nat → List α :=
  l.foldl (spanStep f g) (fun _ => [])

/-- The `markers` defaultdict of the source: offset ↦ list of tag strings. -/
def markers (spans : List Span) : Nat → List String :=
  markersAux (fun p => openTagOf p.2) (fun p => closeTagOf p.2) spans.enum

/-- Abstract marker token: the open or close tag of the i-th formatting
span, identified by its position in the formatting list. -/
inductive Mark where
  | op (i : Nat)
  | cl (i : Nat)
deriving DecidableEq, Repr

/-- The same bucket map at the token level. -/
def marksAt (spans : List Span) : Nat → List Mark :=
  markersAux (fun p => Mark.op p.1) (fun p => Mark.cl p.1) spans.enum

/-- All boundary offsets touched by recognized spans, in touch order. -/
def boundaryList (spans : List Span) : List Nat :=
  spans.foldl (fun acc s =>
    if recognizedType s.type then acc ++ [s.start, s.end_] else acc) []

/-- `sorted(markers.keys())` (line 111): the touched offsets, without
duplicates, in ascending order. -/
def markerKeys (spans : List Span) : List Nat :=
  ((boundaryList spans).dedup).insertionSort (· ≤ ·)

/-- The emitted marker tokens of the whole text run, in output order. -/
def markStream (spans : List Span) : List Mark :=
  (markerKeys spans).flatMap (marksAt spans)

/-- Lines 110-115: `text_parts` — escaped text slices interleaved with the
marker buckets, walking offsets in ascending order. -/
def textParts (raw : String) (spans : List Span) : List String :=
  let r := (markerKeys spans).foldl
    (fun (acc : List String × Nat) (k : Nat) =>
      (acc.1 ++ [htmlEscape (strSlice raw acc.2 k)] ++ markers spans k, k))
    ([], 0)
  r.1 ++ [htmlEscape (strSliceFrom raw r.2)]

/-- Lines 118-119: join the parts and apply the arrow substitution. -/
def renderedText (raw : String) (spans : List Span) : String :=
  arrowSub (String.join (textParts raw spans))

/-- The `tag_map` of lines 121-122. -/
def tagMap (subtype : String) : Option String :=
  if subtype = "heading1" then some "h1"
  else if subtype = "heading2" then some "h2"
  else if subtype = "quote" then some "blockquote"
  else if subtype = "indented" then some "blockquote"
  else if subtype = "chat" then some "p class=\"chat-style\""
  else if subtype = "quirky" then some "p class=\"quirky-style\""
  else none

/-- `tag.split()[0]` (the tag names here have no leading blank, so this is
the prefix before the first space). -/
def tagHead (tag : String) : String :=
  String.mk (tag.data.takeWhile (fun c => c ≠ ' '))

/-- Line 125: wrap the text in the mapped tag, closing only the tag name. -/
def wrapTag (tag text : String) : String :=
  "<" ++ tag ++ ">" ++ text ++ "</" ++ tagHead tag ++ ">\n"

/-- The subtype dispatch of the text branch (lines 121-134): the emitted
fragments and the updated open-list context, given the context left after
the initial close step. -/
def textPieces (st : Option String) (text : String) (active1 : Option String) :
    List String × Option String :=
  match st with
  | some s =>
    match tagMap s with
    | some tag => ([wrapTag tag text], active1)
    | none =>
      if s = "unordered-list-item" || s = "ordered-list-item" then
        let listTag := if s = "unordered-list-item" then "ul" else "ol"
        if active1 ≠ some listTag then
          ((if truthyOpt active1 then ["</" ++ active1.getD "" ++ ">\n"] else []) ++
            ["<" ++ listTag ++ ">\n", "<li>" ++ text ++ "</li>\n"], some listTag)
        else (["<li>" ++ text ++ "</li>\n"], active1)
      else (["<p>" ++ text ++ "</p>\n"], active1)
  | none => (["<p>" ++ text ++ "</p>\n"], active1)

/-! ## The block renderer `_process_single_block` (lines 86-205)

The renderer is embedded as `process_single_block`, returning the list of
html fragments appended to `block_html` (one element per `+=` in the
source; the source's `block_html` string is their concatenation), the
media-url list, and the updated open-list context. -/

/-- The pieces of the poll answer list `<li>` entry (lines 193-198,
including `percentage_str` of line 190). -/
def pollLiPiece (answer_text : String) (pct : Int) : String :=
  "    <li style=\"background: linear-gradient(to right, #f0f0f0 " ++ toString pct ++
  "%, transparent " ++ toString pct ++ "%); padding: 0.25em 0.5em;\" data-percentage=\"" ++
  toString pct ++ "\">" ++ answer_text ++ " <span class=\"poll-percentage\">(" ++
  toString pct ++ "%)</span></li>\n"

/-- The loop over `display_answers` (lines 181-198): one `<li>` per answer,
`votes_map.get` for the tally, division only when `total_votes > 0`. -/
def pollAnswerPieces (votes_map : Json) (total : Int) : List PollAnswer → Except Err (List String)
  | [] => Except.ok []
  | a :: rest =>
    match votesGet votes_map a.client_id with
    | Except.error e => Except.error e
    | Except.ok votes =>
      let pctE : Except Err Int :=
        if total > 0 then
          match votes with
          | Json.num v => Except.ok (pctDisplay v total)
          | _ => Except.error Err.typeError
        else Except.ok 0
      match pctE with
      | Except.error e => Except.error e
      | Except.ok pct =>
        match pollAnswerPieces votes_map total rest with
        | Except.error e => Except.error e
        | Except.ok l =>
          Except.ok (pollLiPiece (arrowSub (htmlEscape (a.answer_text.getD "..."))) pct :: l)

/-- The total-votes line (line 201). -/
def pollTotalPiece (total : Int) : String :=
  "  <p class=\"poll-total-votes\">" ++ fmtThousandsInt total ++ " votes total</p>\n"

/-- The poll question line (lines 176-177). -/
def pollQuestionPiece (question : String) : String :=
  "  <p class=\"poll-question\"><strong>" ++ arrowSub (htmlEscape question) ++ "</strong></p>\n"

/-- Lines 148-173: the `(votes_map, total_votes)` pair used by a poll
block's rendering — the HTTP call is attempted only when blog name, post
id, poll client id and the API key are all truthy. -/
def pollVm (env : PollEnv) (apiKey : Option String)
    (blogName postId : Option String) (block : Block) : Json × Int :=
  if truthyOpt blogName && truthyOpt postId && truthyOpt block.client_id &&
      truthyOpt apiKey then
    fetchVotes (env (blogName.getD "") (postId.getD "") (block.client_id.getD ""))
  else (Json.obj [], 0)

/-- `_process_single_block` (lines 86-205): returns
`(html pieces, media urls, new open-list context)`; `block_html` of the
source is the concatenation of the pieces. -/
def process_single_block (env : PollEnv) (apiKey : Option String)
    (blogName postId : Option String) (block : Block) (active : Option String) :
    Except Err (List String × List String × Option String) :=
  let isListItem : Bool :=
    block.subtype == some "ordered-list-item" || block.subtype == some "unordered-list-item"
  let doClose : Bool := truthyOpt active && !isListItem
  let closePieces : List String :=
    if doClose then ["</" ++ active.getD "" ++ ">\n"] else []
  let active1 : Option String := if doClose then none else active
  if block.type = some "text" then
    match validateSpans (block.formatting.getD []) with
    | Except.error e => Except.error e
    | Except.ok spans =>
      let tp := textPieces block.subtype (renderedText (block.text.getD "") spans) active1
      Except.ok (closePieces ++ tp.1, [], tp.2)
  else if block.type = some "image" ∧ (block.media.getD []) ≠ [] then
    match block.media with
    | some (item :: _) =>
      match item.url with
      | some url =>
        Except.ok (closePieces ++
          ["<img src=\"" ++ url ++ "\" alt=\"" ++
            htmlEscape (block.alt_text.getD "Tumblr Image") ++ "\">\n"], [url], active1)
      | none => Except.error Err.keyError
    | _ => Except.error Err.indexError
  else if block.type = some "poll" then
    let question := block.question.getD "Poll"
    let display_answers := block.answers.getD []
    let vm := pollVm env apiKey blogName postId block
    let ansE : Except Err (List String) :=
      if display_answers ≠ [] then
        match pollAnswerPieces vm.1 vm.2 display_answers with
        | Except.error e => Except.error e
        | Except.ok l => Except.ok (["  <ul class=\"poll-options\">\n"] ++ l ++ ["  </ul>\n"])
      else Except.ok []
    match ansE with
    | Except.error e => Except.error e
    | Except.ok ansPieces =>
      let totalPieces : List String := if vm.2 > 0 then [pollTotalPiece vm.2] else []
      Except.ok (closePieces ++ ["<div class=\"poll-block\">\n", pollQuestionPiece question] ++
        ansPieces ++ totalPieces ++ ["</div>\n"], [], active1)
  else
    Except.ok (closePieces, [], active1)

/-! ## The layout composer `parse_api_content` (lines 207-251) -/

/-- A row of a `rows` layout block: `row_data.get('blocks', [])`. -/
structure RowData where
  blocks : List Nat := []
deriving DecidableEq, Repr

/-- Nested `blog` dict (`{'name': …}`). -/
structure BlogRef where
  name : Option String := none
deriving DecidableEq, Repr

/-- The `attribution` dict of an ask layout block. -/
structure Attribution where
  type : Option String := none
  blog : Option BlogRef := none
deriving DecidableEq, Repr

/-- A layout block: `rows` blocks carry `display` and `truncate_after`;
`ask` blocks carry `blocks` and `attribution`. -/
structure LayoutBlock where
  type : Option String := none
  display : List RowData := []
  truncate_after : Option Nat := none
  blocks : List Nat := []
  attribution : Option Attribution := none
deriving DecidableEq, Repr

/-- Sequential rendering of a list of blocks threading the open-list
context, concatenating pieces and media (the inner loops of lines 227-233
and 238-240). -/
def renderBlocks (env : PollEnv) (apiKey blogName postId : Option String) :
    List Block → Option String → Except Err (List String × List String × Option String)
  | [], act => Except.ok ([], [], act)
  | b :: rest, act =>
    match process_single_block env apiKey blogName postId b act with
    | Except.error e => Except.error e
    | Except.ok (ps, ms, act1) =>
      match renderBlocks env apiKey blogName postId rest act1 with
      | Except.error e => Except.error e
      | Except.ok (ps2, ms2, act2) => Except.ok (ps ++ ps2, ms ++ ms2, act2)

/-- `all_content_blocks[index]` for each index, raising `IndexError` when
out of range. -/
def getBlocks (blocks : List Block) : List Nat → Except Err (List Block)
  | [] => Except.ok []
  | i :: rest =>
    match blocks.get? i with
    | none => Except.error Err.indexError
    | some b =>
      match getBlocks blocks rest with
      | Except.error e => Except.error e
      | Except.ok l => Except.ok (b :: l)

/-- Render the blocks at the given indices in order. -/
def renderIndexed (env : PollEnv) (apiKey blogName postId : Option String)
    (blocks : List Block) (idxs : List Nat) (act : Option String) :
    Except Err (List String × List String × Option String) :=
  match getBlocks blocks idxs with
  | Except.error e => Except.error e
  | Except.ok bs => renderBlocks env apiKey blogName postId bs act

/-- One row (lines 224-233): more than one surviving index gets the
multi-column `<div class="image-row-N">` wrapper. -/
def renderRow (env : PollEnv) (apiKey blogName postId : Option String)
    (blocks : List Block) (relevant : List Nat) (act : Option String) :
    Except Err (List String × List String × Option String) :=
  if relevant.length > 1 then
    match renderIndexed env apiKey blogName postId blocks relevant act with
    | Except.error e => Except.error e
    | Except.ok (ps, ms, act1) =>
      Except.ok (["<div class=\"image-row-" ++ toString relevant.length ++ "\">\n"] ++
        ps ++ ["</div>\n"], ms, act1)
  else renderIndexed env apiKey blogName postId blocks relevant act

/-- Python `min(l)` on a nonempty list (the empty case is unreachable). -/
def pyMin : List Nat → Nat
  | [] => 0
  | a :: rest => rest.foldl Nat.min a

/-- Line 235: `min(relevant_indices) > last_visible_idx`, where
`last_visible_idx` is `truncate_after` or `+inf`. -/
def rowFolded (truncate_after : Option Nat) (relevant : List Nat) : Bool :=
  match truncate_after with
  | none => false
  | some t => pyMin relevant > t

/-- The row loop of lines 220-236: accumulate visible pieces, folded
pieces, media, and the open-list context. -/
def composeRows (env : PollEnv) (apiKey blogName postId : Option String)
    (blocks : List Block) (idxs : List Nat) (truncate_after : Option Nat) :
    List RowData → Option String →
    Except Err (List String × List String × List String × Option String)
  | [], act => Except.ok ([], [], [], act)
  | row :: rest, act =>
    let relevant := row.blocks.filter (fun i => idxs.contains i)
    if relevant = [] then
      composeRows env apiKey blogName postId blocks idxs truncate_after rest act
    else
      match renderRow env apiKey blogName postId blocks relevant act with
      | Except.error e => Except.error e
      | Except.ok (ps, ms, act1) =>
        match composeRows env apiKey blogName postId blocks idxs truncate_after rest act1 with
        | Except.error e => Except.error e
        | Except.ok (bp, ap, m2, act2) =>
          if rowFolded truncate_after relevant then
            Except.ok (bp, ps ++ ap, ms ++ m2, act2)
          else
            Except.ok (ps ++ bp, ap, ms ++ m2, act2)

/-- Lines 210-240: choose the `rows` layout path or the plain sequential
path, producing `(visible pieces, folded pieces, media, open-list ctx)`. -/
def composeCall (env : PollEnv) (apiKey : Option String)
    (all_content_blocks : List Block) (layout_blocks : List LayoutBlock)
    (indices_to_process : Option (List Nat)) (blogName postId : Option String) :
    Except Err (List String × List String × List String × Option String) :=
  let idxs := indices_to_process.getD (List.range all_content_blocks.length)
  match layout_blocks.find? (fun l => l.type == some "rows") with
  | some rl =>
      composeRows env apiKey blogName postId all_content_blocks idxs
        rl.truncate_after rl.display none
  | none =>
      match renderIndexed env apiKey blogName postId all_content_blocks idxs none with
      | Except.error e => Except.error e
      | Except.ok (ps, ms, act) => Except.ok (ps, [], ms, act)

/-- Lines 242-245: after all rows, close a dangling list element, attaching
the closing tag to `html_after` when that buffer is nonempty, else to
`html_before`.  Returns the two string buffers and the media list. -/
def closedBuffers (env : PollEnv) (apiKey : Option String)
    (blocks : List Block) (layouts : List LayoutBlock)
    (idxs : Option (List Nat)) (blogName postId : Option String) :
    Except Err (String × String × List String) :=
  match composeCall env apiKey blocks layouts idxs blogName postId with
  | Except.error e => Except.error e
  | Except.ok (bp, ap, media, act) =>
    let html_before := String.join bp
    let html_after := String.join ap
    if truthyOpt act then
      let closing := "</" ++ act.getD "" ++ ">\n"
      if html_after ≠ "" then
        Except.ok (html_before, rstripNl html_after ++ closing, media)
      else
        Except.ok (rstripNl html_before ++ closing, html_after, media)
    else Except.ok (html_before, html_after, media)

/-- `list(dict.fromkeys(media))` (line 251): dedup keeping first
occurrences. -/
def dedupFirst (l : List String) : List String :=
  l.foldl (fun acc x => if acc.contains x then acc else acc ++ [x]) []

/-- `parse_api_content` (lines 207-251): final html (visible part followed
by the `<details>`-wrapped folded part) and deduplicated media. -/
def parse_api_content (env : PollEnv) (apiKey : Option String)
    (blocks : List Block) (layouts : List LayoutBlock)
    (idxs : Option (List Nat)) (blogName postId : Option String) :
    Except Err (String × List String) :=
  if blocks = [] then Except.ok ("", [])
  else
    match closedBuffers env apiKey blocks layouts idxs blogName postId with
    | Except.error e => Except.error e
    | Except.ok (hb, ha, media) =>
      let final := hb ++
        (if ha ≠ "" then
          "<details>\n  <summary>Keep Reading</summary>\n" ++ ha ++ "</details>\n"
        else "")
      Except.ok (final, dedupFirst media)

/-- The chronological list of html fragments a `parse_api_content` call
emits (visible-buffer pieces, folded-buffer pieces, then the dangling
closing tag, if any); the tag-balance statements are over this list. -/
def parsePieces (env : PollEnv) (apiKey : Option String)
    (blocks : List Block) (layouts : List LayoutBlock)
    (idxs : Option (List Nat)) (blogName postId : Option String) :
    Except Err (List String) :=
  if blocks = [] then Except.ok []
  else
    match composeCall env apiKey blocks layouts idxs blogName postId with
    | Except.error e => Except.error e
    | Except.ok (bp, ap, _, act) =>
      let closing : List String :=
        if truthyOpt act then ["</" ++ act.getD "" ++ ">\n"] else []
      Except.ok (bp ++ ap ++ closing)

/-! ## The post assembler `save_post_to_file` (lines 267-336)

Only the html-body construction is embedded (the surrounding file I/O and
page templating are out of scope).  The `datetime` library is external:
`strf` models the `strftime` composite of `format_datetime_for_display`
(`none` = a `ValueError`/`TypeError` was raised), `strptime` models
`datetime.strptime(:, '%Y-%m-%d %H:%M:%S %Z')` and `fromts` models
`datetime.fromtimestamp` (`none` = parse failure). -/

/-- The nested `post` dict of a trail link (`{'id': …, 'date': …}`). -/
structure PostRef where
  id : Option Nat := none
  date : Option String := none
deriving DecidableEq, Repr

/-- One entry of a post's reblog trail, with the dict keys the assembler
accesses. -/
structure ChainLink where
  blog_name : Option String := none
  blog : Option BlogRef := none
  content : List Block := []
  layout : List LayoutBlock := []
  post : Option PostRef := none
  date : Option String := none
deriving DecidableEq, Repr

/-- A post record (the subject post also plays the role of the final chain
link). -/
structure Post where
  id : Nat
  type : Option String := none
  question : Option String := none
  asking_name : Option String := none
  blog_name : Option String := none
  blog : Option BlogRef := none
  content : List Block := []
  layout : List LayoutBlock := []
  post : Option PostRef := none
  date : Option String := none
  trail : List ChainLink := []
  timestamp : Option Int := none
  reblogged_root_timestamp : Option Int := none
  tags : List String := []
deriving DecidableEq, Repr

/-- `format_datetime_for_display` (lines 50-60): `None` or a raise inside
the `try` displays as `"???"`. -/
def format_datetime_for_display {DT : Type} (strf : DT → Option String) :
    Option DT → String
  | none => "???"
  | some d => (strf d).getD "???"

/-- `format_op_header` (lines 62-64). -/
def format_op_header (username date_str : String) : String :=
  "<div class=\"op-block\">\n  <p class=\"user-info\">" ++ htmlEscape username ++
  "</p>\n  <p class=\"posted\">Posted 路 <span>" ++ date_str ++ "</span></p>\n</div>"

/-- `format_op_content` (lines 66-68). -/
def format_op_content (op_html : String) : String :=
  "<div class=\"op-content\">\n" ++ pyStrip op_html ++ "\n</div>\n"

/-- `format_reblog_block` (lines 70-72). -/
def format_reblog_block (username date_str reblog_html : String) : String :=
  "<div class=\"reblog-block\">\n  <p class=\"user-info\">" ++ htmlEscape username ++
  "</p>\n  <p class=\"reblogged\">Reblogged 路 <span>" ++ date_str ++
  "</span></p>\n  <div class=\"reblog-content\">" ++ pyStrip reblog_html ++ "</div>\n</div>"

/-- `format_ask_block` (lines 74-76). -/
def format_ask_block (asker question_html : String) : String :=
  "<div class=\"ask-block\">\n  <p class=\"asker\"><span>" ++ htmlEscape asker ++
  "</span> asked:</p>\n  <div class=\"question\">" ++ question_html ++ "</div>\n</div>"

/-- `format_answer_block` (lines 78-81). -/
def format_answer_block (username answer_html : String) (include_header : Bool) : String :=
  let header_html :=
    if include_header then
      "  <p class=\"answerer\"><span>" ++ htmlEscape username ++ "</span> answered:</p>\n"
    else ""
  "<div class=\"answer-block\">\n" ++ header_html ++ "  <div class=\"answer-content\">" ++
    pyStrip answer_html ++ "</div>\n</div>"

/-- Line 286: `block.get('blog_name') or block.get('blog', {}).get('name')`
(an empty `blog_name` falls through to the nested name). -/
def linkUsername (l : ChainLink) : Option String :=
  match l.blog_name with
  | some s => if s ≠ "" then some s else l.blog.bind BlogRef.name
  | none => l.blog.bind BlogRef.name

/-- Lines 292-297: the per-link post id used to scope poll fetching.
`str(block.get('post', {}).get('id'))` turns a missing id into the truthy
string `"None"`, so the `if not current_post_id` fallback can only fire on
an empty string. -/
def resolveCurrentPostId (rootIdStr : String) (is_final : Bool) (l : ChainLink) : String :=
  let cur := if is_final then rootIdStr else pyStrOfOptNat (l.post.bind PostRef.id)
  if cur = "" then rootIdStr else cur

/-- The subject post viewed as the final chain link (the Python code simply
reuses the same dict). -/
def Post.toLink (p : Post) : ChainLink :=
  { blog_name := p.blog_name, blog := p.blog, content := p.content,
    layout := p.layout, post := p.post, date := p.date }

/-- Lines 275-280: ask/answer detection (`type == 'answer'`, a truthy
legacy `question`, or an `ask` layout block in the relevant link). -/
def postIsAnswer (p : Post) : Bool :=
  if p.type == some "answer" || truthyOpt p.question then true
  else
    (if p.trail = [] then p.layout else (p.trail.headD {}).layout).any
      (fun b => b.type == some "ask")

/-- Line 282: the full chain (trail links, oldest first, then the subject
post). -/
def fullChain (p : Post) : List ChainLink :=
  if p.trail = [] then [p.toLink] else p.trail ++ [p.toLink]

/-- Lines 307-309: the asker name of a structured ask block (`'Anonymous'`
unless a blog attribution is present; the nested subscripts raise on
missing keys). -/
def askAsker (ask : LayoutBlock) : Except Err String :=
  match ask.attribution with
  | some att =>
    if att.type = some "blog" then
      match att.blog with
      | some b =>
        match b.name with
        | some n => Except.ok n
        | none => Except.error Err.keyError
      | none => Except.error Err.keyError
    else Except.ok "Anonymous"
  | none => Except.ok "Anonymous"

/-- Lines 284-336, one iteration of the chain loop: the html fragments the
link at position `i` contributes to `html_body` (`[]` when the link is
skipped or suppressed). -/
def linkFragment {DT : Type} (strf : DT → Option String) (strptime : String → Option DT)
    (fromts : Int → Option DT) (env : PollEnv) (apiKey : Option String)
    (p : Post) (chainLen : Nat) (i : Nat) (l : ChainLink) : Except Err (List String) :=
  let is_root := i = 0
  let has_trail := p.trail ≠ []
  if ¬ truthyOpt (linkUsername l) ∨ (¬ is_root ∧ l.content = []) then Except.ok []
  else
    let username := (linkUsername l).getD ""
    let is_final := i = chainLen - 1
    let current_post_id := resolveCurrentPostId (toString p.id) is_final l
    if is_root then
      let tsArg : Option Int :=
        match p.reblogged_root_timestamp with
        | some t => some t
        | none => p.timestamp
      let header := format_op_header username
        (format_datetime_for_display strf (tsArg.bind fromts))
      if postIsAnswer p then
        match l.layout.find? (fun b => b.type == some "ask") with
        | some ask_block =>
          match askAsker ask_block with
          | Except.error e => Except.error e
          | Except.ok asker =>
            let ask_indices := ask_block.blocks
            let answer_indices :=
              (List.range l.content.length).filter (fun idx => ¬ ask_indices.contains idx)
            match parse_api_content env apiKey l.content l.layout (some ask_indices)
                (some username) (some current_post_id) with
            | Except.error e => Except.error e
            | Except.ok parsed_ask =>
              match parse_api_content env apiKey l.content l.layout (some answer_indices)
                  (some username) (some current_post_id) with
              | Except.error e => Except.error e
              | Except.ok parsed_answer =>
                Except.ok [header, format_ask_block asker parsed_ask.1,
                  format_answer_block username parsed_answer.1 has_trail]
        | none =>
          match parse_api_content env apiKey l.content l.layout none
              (some username) (some current_post_id) with
          | Except.error e => Except.error e
          | Except.ok parsed =>
            let question_text := arrowSub (htmlEscape (p.question.getD ""))
            Except.ok [header,
              format_ask_block (p.asking_name.getD "Anonymous")
                ("<blockquote>" ++ question_text ++ "</blockquote>"),
              format_answer_block username parsed.1 has_trail]
      else
        match parse_api_content env apiKey l.content l.layout none
            (some username) (some current_post_id) with
        | Except.error e => Except.error e
        | Except.ok parsed => Except.ok [header, format_op_content parsed.1]
    else
      match parse_api_content env apiKey l.content l.layout none
          (some username) (some current_post_id) with
      | Except.error e => Except.error e
      | Except.ok parsed =>
        if is_final ∧ pyStrip parsed.1 = "" then Except.ok []
        else
          let dt_str := if is_final then l.date.getD ""
            else (l.post.bind PostRef.date).getD ""
          let dt : Option DT := if dt_str = "" then none else strptime dt_str
          Except.ok [format_reblog_block username
            (format_datetime_for_display strf dt) parsed.1]

/-- The whole chain loop: all fragments concatenated into `html_body`, in
chain order. -/
def chainFragments {DT : Type} (strf : DT → Option String) (strptime : String → Option DT)
    (fromts : Int → Option DT) (env : PollEnv) (apiKey : Option String)
    (p : Post) : Except Err (List String) :=
  let chain := fullChain p
  chain.enum.foldlM
    (fun acc pr =>
      match linkFragment strf strptime fromts env apiKey p chain.length pr.1 pr.2 with
      | Except.error e => Except.error e
      | Except.ok fs => Except.ok (acc ++ fs))
    []

/-! ## Definitions used by the verification statements -/

/-- Does a fragment open a `<ul>`?  The renderer's only `<ul>`-opening
fragments are the list-open piece `"<ul>\n"` and the poll-options piece
`"  <ul class=…"`; classification is by the fragment's leading characters
(user text inside other fragments is html-escaped, and no other fragment
starts this way). -/
def ulOpenP (l : List Char) : Bool :=
  l.take 3 = ['<', 'u', 'l'] || l.take 5 = [' ', ' ', '<', 'u', 'l']

/-- Does a fragment close a `</ul>`? -/
def ulCloseP (l : List Char) : Bool :=
  l.take 4 = ['<', '/', 'u', 'l'] || l.take 6 = [' ', ' ', '<', '/', 'u', 'l']

/-- Does a fragment open a `<ol>`? -/
def olOpenP (l : List Char) : Bool :=
  l.take 3 = ['<', 'o', 'l'] || l.take 5 = [' ', ' ', '<', 'o', 'l']

/-- Does a fragment close a `</ol>`? -/
def olCloseP (l : List Char) : Bool :=
  l.take 4 = ['<', '/', 'o', 'l'] || l.take 6 = [' ', ' ', '<', '/', 'o', 'l']

/-- Signed `<ul>`-tag count of one fragment. -/
def ulDelta (s : String) : Int :=
  if ulOpenP s.data then 1 else if ulCloseP s.data then -1 else 0

/-- Signed `<ol>`-tag count of one fragment. -/
def olDelta (s : String) : Int :=
  if olOpenP s.data then 1 else if olCloseP s.data then -1 else 0

/-- Total signed `<ul>`-tag count of a fragment list. -/
def sumUl (l : List String) : Int := (l.map ulDelta).sum

/-- Total signed `<ol>`-tag count of a fragment list. -/
def sumOl (l : List String) : Int := (l.map olDelta).sum

/-- 1 when the open-list context is a `<ul>`. -/
def ulInd : Option String → Int
  | some s => if s = "ul" then 1 else 0
  | none => 0

/-- 1 when the open-list context is a `<ol>`. -/
def olInd : Option String → Int
  | some s => if s = "ol" then 1 else 0
  | none => 0

/-- A legal open-list context: absent, `<ul>` or `<ol>`. -/
def goodCtx (a : Option String) : Prop :=
  a = none ∨ a = some "ul" ∨ a = some "ol"

/-- The close markers of the offset bucket at `o`, by span index, in
emission order. -/
def closesAt (spans : List Span) (o : Nat) : List Nat :=
  (marksAt spans o).filterMap (fun m =>
    match m with
    | Mark.cl i => some i
    | Mark.op _ => none)

/-- Stream position of the open marker of span `i`. -/
def openStreamPos (spans : List Span) (i : Nat) : Nat :=
  (markStream spans).indexOf (Mark.op i)

/-- The LIFO property at one offset: the closes emitted there, in order,
belong to spans whose opens were emitted strictly later first (stack
discipline). -/
def lifoAt (spans : List Span) (o : Nat) : Prop :=
  ((closesAt spans o).map (openStreamPos spans)).Pairwise (fun a b => b < a)

/-- Is a span's `start`/`end`/`type` data non-degenerate
(`start < end`, as the spec's data-model invariant requires)? -/
def spanNondegenerate (s : Span) : Bool := s.start < s.end_

/-- A raw formatting entry with all required keys present. -/
def rawSpanComplete (f : RawSpan) : Bool :=
  f.start.isSome && f.end_.isSome && f.type.isSome

/-- A block whose present fields are well-shaped: every formatting entry
has its required keys and every media item has a url. -/
def blockWellShaped (b : Block) : Bool :=
  (b.formatting.getD []).all rawSpanComplete &&
  (b.media.getD []).all (fun it => it.url.isSome)

/-- Is a JSON value a dict? -/
def jIsObj : Json → Bool
  | Json.obj _ => true
  | _ => false

/-- Are all values of a JSON dict integers? -/
def jIntValues : Json → Bool
  | Json.obj kvs => kvs.all (fun kv =>
      match kv.2 with
      | Json.num _ => true
      | _ => false)
  | _ => false

/-- Per-row rendering record: the row, its emitted pieces and media, and
its folded flag. -/
structure RowRender where
  row : RowData
  pieces : List String
  media : List String
  folded : Bool

/-- The row loop restructured as a per-row trace: each non-skipped row
with its output and its visible/folded classification. -/
def rowOutputs (env : PollEnv) (apiKey blogName postId : Option String)
    (blocks : List Block) (idxs : List Nat) (truncate_after : Option Nat) :
    List RowData → Option String → Except Err (List RowRender × Option String)
  | [], act => Except.ok ([], act)
  | row :: rest, act =>
    let relevant := row.blocks.filter (fun i => idxs.contains i)
    if relevant = [] then
      rowOutputs env apiKey blogName postId blocks idxs truncate_after rest act
    else
      match renderRow env apiKey blogName postId blocks relevant act with
      | Except.error e => Except.error e
      | Except.ok (ps, ms, act1) =>
        match rowOutputs env apiKey blogName postId blocks idxs truncate_after rest act1 with
        | Except.error e => Except.error e
        | Except.ok (l, act2) =>
          Except.ok (RowRender.mk row ps ms (rowFolded truncate_after relevant) :: l, act2)

/-- The integer tally a poll answer receives from the fetched vote map
(`votes_map.get(client_id, 0)` when the map is a dict of integers). -/
def answerVotes (vm : Json) (a : PollAnswer) : Int :=
  match vm, a.client_id with
  | Json.obj kvs, some cid =>
    match (jLookup kvs cid).getD (Json.num 0) with
    | Json.num v => v
    | _ => 0
  | _, _ => 0

/-- Recognizer for the total-votes line: its first 30 characters are the
fixed `  <p class="poll-total-votes">` prefix, which no other fragment of
a poll block shares. -/
def isTotalPiece (s : String) : Bool :=
  s.data.take 30 = "  <p class=\"poll-total-votes\">".data

/-- The expected fragment list of a rendered poll block (spec side of
C5): header, question, one `<li>` per answer showing the rounded
percentage of its tally, and the total-votes line exactly when the total
is positive. -/
def pollPieces (vm : Json × Int) (question : String) (answers : List PollAnswer) :
    List String :=
  ["<div class=\"poll-block\">\n", pollQuestionPiece question,
   "  <ul class=\"poll-options\">\n"] ++
  answers.map (fun a =>
    pollLiPiece (arrowSub (htmlEscape (a.answer_text.getD "...")))
      (pctDisplay (answerVotes vm.1 a) vm.2)) ++
  ["  </ul>\n"] ++
  (if vm.2 > 0 then [pollTotalPiece vm.2] else []) ++
  ["</div>\n"]

/-! ## Concrete instances used by witnesses and counterexamples -/

/-- A network environment in which every poll call raises. -/
def dummyEnv : PollEnv := fun _ _ _ => HttpResult.raised

/-- A plain-paragraph text block. -/
def pBlock (t : String) : Block := { type := some "text", text := some t }

/-- An unordered-list-item text block. -/
def uliBlock (t : String) : Block :=
  { type := some "text", subtype := some "unordered-list-item", text := some t }

/-- An ordered-list-item text block. -/
def oliBlock (t : String) : Block :=
  { type := some "text", subtype := some "ordered-list-item", text := some t }

/-- The `<li>` fragment a list-item text block with unformatted text `t`
emits. -/
def liPieceOf (t : String) : String := "<li>" ++ renderedText t [] ++ "</li>\n"

/-- The `<p>` fragment a plain text block with unformatted text `t` emits. -/
def pPieceOf (t : String) : String := "<p>" ++ renderedText t [] ++ "</p>\n"

/-- A rows layout listing block 1 in its first row and block 0 in its
second, truncated after 0: the row at position 0 holds only block index 1. -/
def swapLayout : LayoutBlock :=
  { type := some "rows",
    display := [{ blocks := [1] }, { blocks := [0] }],
    truncate_after := some 0 }

/-- A poll-results response whose `results` field is a JSON array (a shape
the dict-expecting code cannot handle). -/
def badShapeEnv : PollEnv := fun _ _ _ =>
  HttpResult.ok 200 (Json.obj
    [("meta", Json.obj [("status", Json.num 200)]),
     ("response", Json.obj [("results", Json.arr [])])])

/-- A poll block with one answer whose identifiers are all present. -/
def pollCrashBlock : Block :=
  { type := some "poll", question := some "Q",
    answers := some [({ answer_text := some "A", client_id := some "x" } : PollAnswer)],
    client_id := some "c" }

/-- A text block with an unrecognized subtype. -/
def mysteryBlock : Block :=
  { type := some "text", subtype := some "mystery", text := some "hi" }

/-- A text block with an empty formatting entry (`fmt['start']` raises). -/
def badFmtBlock : Block :=
  { type := some "text", text := some "hi", formatting := some [({} : RawSpan)] }

/-- A trail link whose nested `post` dict exists but has no `id`. -/
def noIdLink : ChainLink :=
  { blog_name := some "alice", content := [pBlock "hello"],
    post := some ({ id := none, date := none } : PostRef) }

/-- The two crossing spans of the spec's formatter example. -/
def spanBold05 : Span := { start := 0, end_ := 5, type := "bold" }

/-- The italic span `[2,8)` of the spec's formatter example. -/
def spanItalic28 : Span := { start := 2, end_ := 8, type := "italic" }

/-- A poll-results response with tallies 3, 1, 0 for answers `a`, `b`,
`c` (total 4). -/
def votes310Env : PollEnv := fun _ _ _ =>
  HttpResult.ok 200 (Json.obj
    [("meta", Json.obj [("status", Json.num 200)]),
     ("response", Json.obj [("results", Json.obj
       [("a", Json.num 3), ("b", Json.num 1), ("c", Json.num 0)])])])

/-- A three-answer poll block joined to `votes310Env` by client ids. -/
def poll310Block : Block :=
  { type := some "poll", question := some "Q",
    answers := some [({ answer_text := some "A", client_id := some "a" } : PollAnswer),
                     ({ answer_text := some "B", client_id := some "b" } : PollAnswer),
                     ({ answer_text := some "C", client_id := some "c" } : PollAnswer)],
    client_id := some "p" }

/-- A trail link by `alice` with one paragraph of content. -/
def cexLinkAlice : ChainLink :=
  { blog_name := some "alice", content := [pBlock "hello"] }

/-- A subject post by `bob` whose own content is a single unknown-type
block (so its rendering strips to empty), reblogging `cexLinkAlice`. -/
def cexSubjPost : Post :=
  { id := 9, blog_name := some "bob",
    content := [({ type := some "videoX" } : Block)],
    trail := [cexLinkAlice] }

/-! ## Helper lemmas -/

theorem validateSpans_of_complete (l : List RawSpan) (h : l.all rawSpanComplete = true) :
    ∃ spans, validateSpans l = Except.ok spans := by
  induction l with
  | nil => exact ⟨[], rfl⟩
  | cons f rest ih =>
    simp only [List.all_cons, Bool.and_eq_true] at h
    obtain ⟨spans, hs⟩ := ih h.2
    have hc := h.1
    unfold rawSpanComplete at hc
    match hfs : f.start, hfe : f.end_, hft : f.type with
    | some a, some b, some c =>
      refine ⟨Span.mk a b c f.url :: spans, ?_⟩
      simp [validateSpans, readSpan, hfs, hfe, hft, hs]
    | none, _, _ => rw [hfs] at hc; simp at hc
    | some _, none, _ => rw [hfe] at hc; simp at hc
    | some _, some _, none => rw [hft] at hc; simp at hc

theorem jLookup_int_values (kvs : List (String × Json))
    (h : jIntValues (Json.obj kvs) = true) (cid : String) (v : Json)
    (hl : jLookup kvs cid = some v) : ∃ n, v = Json.num n := by
  simp only [jIntValues, List.all_eq_true] at h
  unfold jLookup at hl
  match hf : kvs.find? (fun kv => kv.1 == cid) with
  | some kv =>
    rw [hf] at hl
    have hmem := List.mem_of_find?_eq_some hf
    have hkv2 := h kv hmem
    cases hkv : kv.2 with
    | num n =>
      refine ⟨n, ?_⟩
      simp at hl
      rw [← hl, hkv]
    | null => rw [hkv] at hkv2; simp at hkv2
    | str s => rw [hkv] at hkv2; simp at hkv2
    | arr xs => rw [hkv] at hkv2; simp at hkv2
    | obj o => rw [hkv] at hkv2; simp at hkv2
  | none => rw [hf] at hl; simp at hl

theorem pollAnswerPieces_of_int_values (vm : Json) (hvm : jIntValues vm = true)
    (total : Int) (answers : List PollAnswer) :
    ∃ l, pollAnswerPieces vm total answers = Except.ok l := by
  induction answers with
  | nil => exact ⟨[], rfl⟩
  | cons a rest ih =>
    obtain ⟨l, hl⟩ := ih
    cases vm with
    | obj kvs =>
      cases hc : a.client_id with
      | some cid =>
        cases hlk : jLookup kvs cid with
        | some v =>
          obtain ⟨n, hn⟩ := jLookup_int_values kvs hvm cid v hlk
          subst hn
          refine ⟨pollLiPiece (arrowSub (htmlEscape (a.answer_text.getD "...")))
            (if total > 0 then pctDisplay n total else 0) :: l, ?_⟩
          by_cases htot : total > 0 <;>
            simp [pollAnswerPieces, votesGet, hc, hlk, htot, hl]
        | none =>
          refine ⟨pollLiPiece (arrowSub (htmlEscape (a.answer_text.getD "...")))
            (if total > 0 then pctDisplay 0 total else 0) :: l, ?_⟩
          by_cases htot : total > 0 <;>
            simp [pollAnswerPieces, votesGet, hc, hlk, htot, hl]
      | none =>
        refine ⟨pollLiPiece (arrowSub (htmlEscape (a.answer_text.getD "...")))
          (if total > 0 then pctDisplay 0 total else 0) :: l, ?_⟩
        by_cases htot : total > 0 <;>
          simp [pollAnswerPieces, votesGet, hc, htot, hl]
    | null => simp [jIntValues] at hvm
    | num n => simp [jIntValues] at hvm
    | str s => simp [jIntValues] at hvm
    | arr xs => simp [jIntValues] at hvm

theorem renderBlocks_append_ok (env : PollEnv) (apiKey bn pid : Option String)
    (l1 l2 : List Block) :
    ∀ (act : Option String) (ps1 ms1 : List String) (a1 : Option String)
      (ps2 ms2 : List String) (a2 : Option String),
    renderBlocks env apiKey bn pid l1 act = Except.ok (ps1, ms1, a1) →
    renderBlocks env apiKey bn pid l2 a1 = Except.ok (ps2, ms2, a2) →
    renderBlocks env apiKey bn pid (l1 ++ l2) act = Except.ok (ps1 ++ ps2, ms1 ++ ms2, a2) := by
  induction l1 with
  | nil =>
    intro act ps1 ms1 a1 ps2 ms2 a2 h1 h2
    rw [renderBlocks] at h1
    injection h1 with h1
    injection h1 with e1 h1
    injection h1 with e2 e3
    subst e1; subst e2; subst e3
    simpa using h2
  | cons b rest ih =>
    intro act ps1 ms1 a1 ps2 ms2 a2 h1 h2
    rw [renderBlocks] at h1
    match hb : process_single_block env apiKey bn pid b act with
    | Except.error e => rw [hb] at h1; cases h1
    | Except.ok (p, m, a) =>
      rw [hb] at h1
      match hr : renderBlocks env apiKey bn pid rest a with
      | Except.error e => simp only [hr] at h1; cases h1
      | Except.ok (pr, mr, ar) =>
        simp only [hr] at h1
        injection h1 with h1
        injection h1 with e1 h1
        injection h1 with e2 e3
        rw [← e3] at h2
        have hrec := ih a pr mr ar ps2 ms2 a2 hr h2
        show (match process_single_block env apiKey bn pid b act with
          | Except.error e => Except.error e
          | Except.ok (ps, ms, act1) =>
            match renderBlocks env apiKey bn pid (rest ++ l2) act1 with
            | Except.error e => Except.error e
            | Except.ok (ps2, ms2, act2) =>
              Except.ok (ps ++ ps2, ms ++ ms2, act2)) = _
        rw [hb]
        simp only [hrec, ← e1, ← e2]
        simp

theorem renderBlocks_uli_run (env : PollEnv) (apiKey bn pid : Option String)
    (ts : List String) :
    renderBlocks env apiKey bn pid (ts.map uliBlock) (some "ul") =
      Except.ok (ts.map liPieceOf, [], some "ul") := by
  induction ts with
  | nil => rfl
  | cons t rest ih =>
    have hstep : process_single_block env apiKey bn pid (uliBlock t) (some "ul") =
        Except.ok ([liPieceOf t], [], some "ul") := rfl
    simp [List.map_cons, renderBlocks, hstep, ih]

theorem renderBlocks_oli_run (env : PollEnv) (apiKey bn pid : Option String)
    (ts : List String) :
    renderBlocks env apiKey bn pid (ts.map oliBlock) (some "ol") =
      Except.ok (ts.map liPieceOf, [], some "ol") := by
  induction ts with
  | nil => rfl
  | cons t rest ih =>
    have hstep : process_single_block env apiKey bn pid (oliBlock t) (some "ol") =
        Except.ok ([liPieceOf t], [], some "ol") := rfl
    simp [List.map_cons, renderBlocks, hstep, ih]

/-! ## Claims -/

/-- C7: evaluating the post-id resolution of lines 292-297 at a non-final
trail link (with author and content, so it is rendered) whose embedded
`post` reference has no id.  The code computes `str(None) = "None"`, which
is truthy, so the `if not current_post_id` fallback to the subject post's
id `"123"` never fires: poll fetching for that link is scoped by the
invalid identifier `"None"`, contradicting the claim (and the code's own
`# failsafe` comment and debug message, which expect the fallback). -/
theorem C7_postid_fallback_dead :
    resolveCurrentPostId "123" false noIdLink = "None" ∧ "None" ≠ "123" :=
  ⟨rfl, by decide⟩

/-- C3: a poll block with one answer and all identifiers present, whose
poll-results call returns HTTP 200 with meta-status 200 but a `results`
payload that is a JSON array rather than a dict.  `votes_map` keeps the
array when `sum(votes_map.values())` raises inside the `try`, and
`votes_map.get(client_id, 0)` on line 184 — outside the `try` — then
raises `AttributeError` out of the block renderer, contradicting the
claim's "empty vote map and no exception propagates". -/
theorem C3_poll_unexpected_shape_raises :
    process_single_block badShapeEnv (some "k") (some "blog") (some "1")
      pollCrashBlock none = Except.error Err.attributeError := by
  rfl

/-- C4 counterexample: (a) a text block with the unknown subtype
`"mystery"` renders a full paragraph — output beyond closing a list
element — and (b) a text block whose formatting entry is an empty dict
raises `KeyError` (line 102 subscripts `fmt['start']`), so processing does
throw for a data-shape problem inside a block. -/
theorem C4_counterexample :
    process_single_block dummyEnv none none none mysteryBlock none =
      Except.ok (["<p>hi</p>\n"], [], none)
    ∧ process_single_block dummyEnv none none none badFmtBlock none =
      Except.error Err.keyError :=
  ⟨rfl, rfl⟩

/-- C4 (amended): a block whose type is not text/image/poll raises no
exception and contributes nothing beyond closing a previously open list
element (and clears the context exactly when it closes); and rendering
raises no exception for blocks whose formatting entries and media items
have their required keys, provided a poll block's fetched vote map is a
dict with integer tallies. -/
theorem C4_unknown_block_tolerance :
    (∀ (env : PollEnv) (apiKey blogName postId : Option String) (block : Block)
        (act : Option String),
      block.type ≠ some "text" → block.type ≠ some "image" → block.type ≠ some "poll" →
      process_single_block env apiKey blogName postId block act =
        Except.ok
          (if truthyOpt act && !(block.subtype == some "ordered-list-item" ||
              block.subtype == some "unordered-list-item")
           then (["</" ++ act.getD "" ++ ">\n"], [], none)
           else ([], [], act)))
    ∧ (∀ (env : PollEnv) (apiKey blogName postId : Option String) (block : Block)
        (act : Option String),
      blockWellShaped block = true →
      (block.type = some "poll" →
        jIntValues (pollVm env apiKey blogName postId block).1 = true) →
      ∃ r, process_single_block env apiKey blogName postId block act = Except.ok r) := by
  constructor
  · intro env apiKey bn pid block act h1 h2 h3
    unfold process_single_block
    rw [if_neg h1, if_neg (fun hh => h2 hh.1), if_neg h3]
    by_cases hd : (truthyOpt act && !(block.subtype == some "ordered-list-item" ||
        block.subtype == some "unordered-list-item")) = true
    · simp only [hd, if_true, if_pos]
    · simp only [Bool.not_eq_true] at hd
      simp only [hd, Bool.false_eq_true, if_false]
  · intro env apiKey bn pid block act hws hpoll
    unfold blockWellShaped at hws
    simp only [Bool.and_eq_true] at hws
    unfold process_single_block
    by_cases h1 : block.type = some "text"
    · rw [if_pos h1]
      obtain ⟨spans, hsp⟩ := validateSpans_of_complete _ hws.1
      rw [hsp]
      exact ⟨_, rfl⟩
    · rw [if_neg h1]
      by_cases h2 : block.type = some "image" ∧ (block.media.getD []) ≠ []
      · rw [if_pos h2]
        rcases hm : block.media with _ | l
        · rw [hm] at h2; simp at h2
        · rcases l with _ | ⟨it, rest⟩
          · rw [hm] at h2; simp at h2
          · obtain ⟨uo⟩ := it
            have hu := hws.2
            rw [hm] at hu
            simp only [Option.getD_some, List.all_cons, Bool.and_eq_true] at hu
            rcases uo with _ | u
            · simp at hu
            · exact ⟨_, rfl⟩
      · rw [if_neg h2]
        by_cases h3 : block.type = some "poll"
        · rw [if_pos h3]
          obtain ⟨lans, hans⟩ := pollAnswerPieces_of_int_values
            (pollVm env apiKey bn pid block).1 (hpoll h3)
            (pollVm env apiKey bn pid block).2 (block.answers.getD [])
          by_cases hda : (block.answers.getD []) ≠ []
          · simp only [if_pos hda, hans]
            exact ⟨_, rfl⟩
          · simp only [if_neg hda]
            exact ⟨_, rfl⟩
        · rw [if_neg h3]
          exact ⟨_, rfl⟩

/-- Witness for `C4_unknown_block_tolerance`: an unknown `videoX` block
with a `<ul>` open emits exactly the closing tag, and a well-shaped poll
block (no credentials, so an empty vote dict) renders successfully. -/
theorem C4_unknown_block_tolerance_witness :
    process_single_block dummyEnv none none none ({ type := some "videoX" } : Block)
      (some "ul") = Except.ok (["</ul>\n"], [], none)
    ∧ ∃ r, process_single_block dummyEnv none none none pollCrashBlock none =
        Except.ok r := by
  constructor
  · have h := C4_unknown_block_tolerance.1 dummyEnv none none none
      ({ type := some "videoX" } : Block) (some "ul")
      (by decide) (by decide) (by decide)
    simpa using h
  · exact C4_unknown_block_tolerance.2 dummyEnv none none none pollCrashBlock none
      (by decide) (fun _ => by rfl)

/-- C2 counterexample: blocks `["zero", "one"]` with a rows layout whose
row at position 0 holds block index 1, whose row at position 1 holds block
index 0, and `truncate_after = 0`.  The claim classifies rows by their
position in the rows sequence, so the row at position 0 (≤ truncateAfter)
must be visible; the code instead classifies by minimum surviving block
index, so that row (min index 1 > 0) lands in the folded buffer: the
visible buffer is exactly block 0's paragraph and does not contain the
row-0 text `"one"` at all. -/
theorem C2_counterexample :
    closedBuffers dummyEnv none [pBlock "zero", pBlock "one"] [swapLayout] none none none =
      Except.ok ("<p>zero</p>\n", "<p>one</p>\n", [])
    ∧ ¬ List.IsInfix "one".data "<p>zero</p>\n".data :=
  ⟨rfl, by decide⟩

/-- C2 (amended): with a rows layout, a row whose intersection with the
requested index subset is empty is skipped entirely; every remaining row
is rendered into the visible buffer exactly when the *minimum surviving
block index* of the row is at or below `truncate_after` (`rowFolded`),
and into the folded buffer otherwise — row position plays no role. -/
theorem C2_truncation_by_min_block_index (env : PollEnv)
    (apiKey blogName postId : Option String) (blocks : List Block)
    (idxs : List Nat) (ta : Option Nat) (rows : List RowData) :
    ∀ (act : Option String) (bp ap m : List String) (act' : Option String),
    composeRows env apiKey blogName postId blocks idxs ta rows act =
      Except.ok (bp, ap, m, act') →
    ∃ l, rowOutputs env apiKey blogName postId blocks idxs ta rows act = Except.ok (l, act')
      ∧ bp = (l.filter (fun r => !r.folded)).flatMap (fun r => r.pieces)
      ∧ ap = (l.filter (fun r => r.folded)).flatMap (fun r => r.pieces)
      ∧ m = l.flatMap (fun r => r.media)
      ∧ ∀ r ∈ l, r.row.blocks.filter (fun i => idxs.contains i) ≠ [] ∧
          r.folded = rowFolded ta (r.row.blocks.filter (fun i => idxs.contains i)) := by
  induction rows with
  | nil =>
    intro act bp ap m act' h
    rw [composeRows] at h
    injection h with h
    injection h with h1 h
    injection h with h2 h
    injection h with h3 h4
    refine ⟨[], ?_, by simp [← h1], by simp [← h2], by simp [← h3], ?_⟩
    · rw [rowOutputs, h4]
    · intro r hr; cases hr
  | cons row rest ih =>
    intro act bp ap m act' h
    rw [composeRows] at h
    by_cases hrel : row.blocks.filter (fun i => idxs.contains i) = []
    · rw [if_pos hrel] at h
      obtain ⟨l, hl, e1, e2, e3, e4⟩ := ih act bp ap m act' h
      refine ⟨l, ?_, e1, e2, e3, e4⟩
      rw [rowOutputs, if_pos hrel]
      exact hl
    · rw [if_neg hrel] at h
      match hr : renderRow env apiKey blogName postId blocks
          (row.blocks.filter (fun i => idxs.contains i)) act with
      | Except.error e => simp only [hr] at h; cases h
      | Except.ok (ps, ms, act1) =>
        simp only [hr] at h
        match hc : composeRows env apiKey blogName postId blocks idxs ta rest act1 with
        | Except.error e => simp only [hc] at h; cases h
        | Except.ok (bp2, ap2, m2, act2) =>
          simp only [hc] at h
          obtain ⟨l, hl, e1, e2, e3, e4⟩ := ih act1 bp2 ap2 m2 act2 hc
          by_cases hf : rowFolded ta (row.blocks.filter (fun i => idxs.contains i)) = true
          · rw [if_pos hf] at h
            injection h with h
            injection h with hbp h
            injection h with hap h
            injection h with hm hact
            refine ⟨RowRender.mk row ps ms true :: l, ?_, ?_, ?_, ?_, ?_⟩
            · simp only [rowOutputs, if_neg hrel, hr, hl, hact, hf]
            · simp [← hbp, e1]
            · simp [← hap, e2]
            · simp [← hm, e3]
            · intro r hr2
              rcases List.mem_cons.mp hr2 with rfl | hr2
              · exact ⟨hrel, hf.symm⟩
              · exact e4 r hr2
          · rw [if_neg hf] at h
            injection h with h
            injection h with hbp h
            injection h with hap h
            injection h with hm hact
            simp only [Bool.not_eq_true] at hf
            refine ⟨RowRender.mk row ps ms false :: l, ?_, ?_, ?_, ?_, ?_⟩
            · simp only [rowOutputs, if_neg hrel, hr, hl, hact, hf]
            · simp [← hbp, e1]
            · simp [← hap, e2]
            · simp [← hm, e3]
            · intro r hr2
              rcases List.mem_cons.mp hr2 with rfl | hr2
              · exact ⟨hrel, hf.symm⟩
              · exact e4 r hr2

/-- Witness for `C2_truncation_by_min_block_index` at the counterexample
layout: the row holding block 1 is folded, the row holding block 0 is
visible. -/
theorem C2_truncation_by_min_block_index_witness :
    composeRows dummyEnv none none none [pBlock "zero", pBlock "one"] [0, 1] (some 0)
      [RowData.mk [1], RowData.mk [0]] none =
      Except.ok (["<p>zero</p>\n"], ["<p>one</p>\n"], [], none)
    ∧ ∃ l, rowOutputs dummyEnv none none none [pBlock "zero", pBlock "one"] [0, 1] (some 0)
        [RowData.mk [1], RowData.mk [0]] none = Except.ok (l, none)
      ∧ ["<p>zero</p>\n"] = (l.filter (fun r => !r.folded)).flatMap (fun r => r.pieces)
      ∧ ["<p>one</p>\n"] = (l.filter (fun r => r.folded)).flatMap (fun r => r.pieces)
      ∧ ([] : List String) = l.flatMap (fun r => r.media)
      ∧ ∀ r ∈ l, r.row.blocks.filter (fun i => ([0, 1] : List Nat).contains i) ≠ [] ∧
          r.folded = rowFolded (some 0) (r.row.blocks.filter (fun i => ([0, 1] : List Nat).contains i)) :=
  ⟨rfl, C2_truncation_by_min_block_index dummyEnv none none none
    [pBlock "zero", pBlock "one"] [0, 1] (some 0) [RowData.mk [1], RowData.mk [0]]
    none ["<p>zero</p>\n"] ["<p>one</p>\n"] [] none rfl⟩

/-- C8 counterexample: two unordered list items laid out as rows `[1]`
then `[0]` with `truncate_after = 0`.  The folded row (block 1) is
processed first and opens the `<ul>`; the visible row (block 0) is
processed last, so the visible buffer is the *last-written* buffer.  Yet
the dangling `</ul>` is attached to the folded buffer (which is
nonempty), not to the last-written visible buffer: the visible buffer
`"<li>a</li>\n"` contains no closing tag, contradicting the claim's
"attached to whichever buffer was last written to". -/
theorem C8_counterexample :
    closedBuffers dummyEnv none [uliBlock "a", uliBlock "b"] [swapLayout] none none none =
      Except.ok ("<li>a</li>\n", "<ul>\n<li>b</li></ul>\n", [])
    ∧ (∃ l act, rowOutputs dummyEnv none none none [uliBlock "a", uliBlock "b"] [0, 1]
        (some 0) [RowData.mk [1], RowData.mk [0]] none = Except.ok (l, act)
        ∧ l.map (fun r => r.folded) = [true, false])
    ∧ ¬ List.IsInfix "</ul>".data "<li>a</li>\n".data :=
  ⟨rfl, ⟨_, _, rfl, rfl⟩, by decide⟩

/-- C8 (amended): when a list element is still open after all rows, a
single closing tag is appended; it is attached to the folded buffer
whenever that buffer is nonempty, and to the visible buffer otherwise
(the folded buffer is the last-written one only when no visible row
follows a folded row). -/
theorem C8_dangling_close_to_folded_buffer (env : PollEnv) (apiKey : Option String)
    (blocks : List Block) (layouts : List LayoutBlock) (idxs : Option (List Nat))
    (blogName postId : Option String) (bp ap m : List String) (act' : Option String)
    (h : composeCall env apiKey blocks layouts idxs blogName postId =
      Except.ok (bp, ap, m, act'))
    (hact : truthyOpt act' = true) :
    closedBuffers env apiKey blocks layouts idxs blogName postId =
      Except.ok (if String.join ap = "" then
          (rstripNl (String.join bp) ++ ("</" ++ act'.getD "" ++ ">\n"), String.join ap, m)
        else
          (String.join bp, rstripNl (String.join ap) ++ ("</" ++ act'.getD "" ++ ">\n"), m)) := by
  unfold closedBuffers
  rw [h]
  by_cases hja : String.join ap = ""
  · simp [hact, hja]
  · simp [hact, hja]

/-- Witness for `C8_dangling_close_to_folded_buffer` at the counterexample
input: the folded buffer is nonempty, so it receives the closing tag. -/
theorem C8_dangling_close_to_folded_buffer_witness :
    composeCall dummyEnv none [uliBlock "a", uliBlock "b"] [swapLayout] none none none =
      Except.ok (["<li>a</li>\n"], ["<ul>\n", "<li>b</li>\n"], [], some "ul")
    ∧ truthyOpt (some "ul") = true
    ∧ closedBuffers dummyEnv none [uliBlock "a", uliBlock "b"] [swapLayout] none none none =
      Except.ok (if String.join ["<ul>\n", "<li>b</li>\n"] = "" then
          (rstripNl (String.join ["<li>a</li>\n"]) ++ ("</" ++ (some "ul").getD "" ++ ">\n"),
            String.join ["<ul>\n", "<li>b</li>\n"], [])
        else
          (String.join ["<li>a</li>\n"],
            rstripNl (String.join ["<ul>\n", "<li>b</li>\n"]) ++
              ("</" ++ (some "ul").getD "" ++ ">\n"), [])) :=
  ⟨rfl, rfl, C8_dangling_close_to_folded_buffer dummyEnv none
    [uliBlock "a", uliBlock "b"] [swapLayout] none none none
    ["<li>a</li>\n"] ["<ul>\n", "<li>b</li>\n"] [] (some "ul") rfl rfl⟩

/-- C6: list merging, for both list kinds.  A nonempty run of
`unordered-list-item` text blocks rendered from an empty context emits
exactly one `<ul>` open followed by one `<li>` per block (the context
stays on that list); a following `ordered-list-item` block closes the
`<ul>` and opens a fresh `<ol>` (kind switch); a following non-list-item
block closes the `<ul>` and emits its own fragment with the context
cleared.  Symmetrically, a nonempty run of `ordered-list-item` blocks
emits exactly one `<ol>` open with one `<li>` per block; a following
`unordered-list-item` block closes the `<ol>` and opens a fresh `<ul>`;
and a following non-list-item block closes the `<ol>` and emits its own
fragment with the context cleared. -/
theorem C6_list_merging (env : PollEnv) (apiKey bn pid : Option String)
    (t : String) (ts : List String) (tOrd s : String) :
    (renderBlocks env apiKey bn pid ((t :: ts).map uliBlock) none =
      Except.ok ("<ul>\n" :: (t :: ts).map liPieceOf, [], some "ul")
    ∧ renderBlocks env apiKey bn pid ((t :: ts).map uliBlock ++ [oliBlock tOrd]) none =
      Except.ok (("<ul>\n" :: (t :: ts).map liPieceOf) ++
        ["</ul>\n", "<ol>\n", liPieceOf tOrd], [], some "ol")
    ∧ renderBlocks env apiKey bn pid ((t :: ts).map uliBlock ++ [pBlock s]) none =
      Except.ok (("<ul>\n" :: (t :: ts).map liPieceOf) ++
        ["</ul>\n", pPieceOf s], [], none))
    ∧ (renderBlocks env apiKey bn pid ((t :: ts).map oliBlock) none =
      Except.ok ("<ol>\n" :: (t :: ts).map liPieceOf, [], some "ol")
    ∧ renderBlocks env apiKey bn pid ((t :: ts).map oliBlock ++ [uliBlock tOrd]) none =
      Except.ok (("<ol>\n" :: (t :: ts).map liPieceOf) ++
        ["</ol>\n", "<ul>\n", liPieceOf tOrd], [], some "ul")
    ∧ renderBlocks env apiKey bn pid ((t :: ts).map oliBlock ++ [pBlock s]) none =
      Except.ok (("<ol>\n" :: (t :: ts).map liPieceOf) ++
        ["</ol>\n", pPieceOf s], [], none)) := by
  have hfirst : process_single_block env apiKey bn pid (uliBlock t) none =
      Except.ok (["<ul>\n", liPieceOf t], [], some "ul") := rfl
  have hrun : renderBlocks env apiKey bn pid ((t :: ts).map uliBlock) none =
      Except.ok ("<ul>\n" :: (t :: ts).map liPieceOf, [], some "ul") := by
    simp only [List.map_cons, renderBlocks, hfirst, renderBlocks_uli_run]
    simp
  have hfirstO : process_single_block env apiKey bn pid (oliBlock t) none =
      Except.ok (["<ol>\n", liPieceOf t], [], some "ol") := rfl
  have hrunO : renderBlocks env apiKey bn pid ((t :: ts).map oliBlock) none =
      Except.ok ("<ol>\n" :: (t :: ts).map liPieceOf, [], some "ol") := by
    simp only [List.map_cons, renderBlocks, hfirstO, renderBlocks_oli_run]
    simp
  refine ⟨⟨hrun, ?_, ?_⟩, ⟨hrunO, ?_, ?_⟩⟩
  · have hswitch : renderBlocks env apiKey bn pid [oliBlock tOrd] (some "ul") =
        Except.ok (["</ul>\n", "<ol>\n", liPieceOf tOrd], [], some "ol") := rfl
    have := renderBlocks_append_ok env apiKey bn pid ((t :: ts).map uliBlock)
      [oliBlock tOrd] none _ _ _ _ _ _ hrun hswitch
    simpa using this
  · have hclose : renderBlocks env apiKey bn pid [pBlock s] (some "ul") =
        Except.ok (["</ul>\n", pPieceOf s], [], none) := rfl
    have := renderBlocks_append_ok env apiKey bn pid ((t :: ts).map uliBlock)
      [pBlock s] none _ _ _ _ _ _ hrun hclose
    simpa using this
  · have hswitch : renderBlocks env apiKey bn pid [uliBlock tOrd] (some "ol") =
        Except.ok (["</ol>\n", "<ul>\n", liPieceOf tOrd], [], some "ul") := rfl
    have := renderBlocks_append_ok env apiKey bn pid ((t :: ts).map oliBlock)
      [uliBlock tOrd] none _ _ _ _ _ _ hrunO hswitch
    simpa using this
  · have hclose : renderBlocks env apiKey bn pid [pBlock s] (some "ol") =
        Except.ok (["</ol>\n", pPieceOf s], [], none) := rfl
    have := renderBlocks_append_ok env apiKey bn pid ((t :: ts).map oliBlock)
      [pBlock s] none _ _ _ _ _ _ hrunO hclose
    simpa using this

theorem roundHalfEvenFrac_eq_rat (a b : Int) (hb : 0 < b) :
    roundHalfEvenFrac a b = roundHalfEven ((a : ℚ) / (b : ℚ)) := by
  have hbQ : (0 : ℚ) < (b : ℚ) := by exact_mod_cast hb
  have hid : b * (a.fdiv b) + a.fmod b = a := Int.fdiv_add_fmod a b
  have hr0 : 0 ≤ a.fmod b := Int.fmod_nonneg' a hb
  have hrb : a.fmod b < b := Int.fmod_lt_of_pos a hb
  have hid2 : a - a.fdiv b * b = a.fmod b := by
    have hcomm : b * a.fdiv b = a.fdiv b * b := mul_comm _ _
    omega
  have hfloor : ⌊(a : ℚ) / (b : ℚ)⌋ = a.fdiv b := by
    rw [Int.floor_eq_iff]
    constructor
    · rw [le_div_iff₀ hbQ]
      have h3 : (a.fdiv b) * b ≤ a := by omega
      exact_mod_cast h3
    · rw [div_lt_iff₀ hbQ]
      have h3 : a < (a.fdiv b + 1) * b := by nlinarith [hid2, hrb]
      exact_mod_cast h3
  have hreq : (a : ℚ) / b - ((a.fdiv b : Int) : ℚ) = ((a.fmod b : Int) : ℚ) / b := by
    field_simp
    have h4 : ((a : ℚ)) = (b : ℚ) * ((a.fdiv b : Int) : ℚ) + ((a.fmod b : Int) : ℚ) := by
      exact_mod_cast hid.symm
    linarith [h4]
  have h1 : (((a.fmod b : Int) : ℚ) / b < 1/2) ↔ (2 * a.fmod b < b) := by
    rw [div_lt_iff₀ hbQ]
    constructor
    · intro h
      have h5 : ((2 * a.fmod b : Int) : ℚ) < ((b : Int) : ℚ) := by push_cast; linarith
      exact_mod_cast h5
    · intro h
      have h5 : ((2 * a.fmod b : Int) : ℚ) < ((b : Int) : ℚ) := by exact_mod_cast h
      push_cast at h5
      linarith
  have h2 : (((a.fmod b : Int) : ℚ) / b > 1/2) ↔ (2 * a.fmod b > b) := by
    rw [gt_iff_lt, lt_div_iff₀ hbQ]
    constructor
    · intro h
      have h5 : ((b : Int) : ℚ) < ((2 * a.fmod b : Int) : ℚ) := by push_cast; linarith
      exact_mod_cast h5
    · intro h
      have h5 : ((b : Int) : ℚ) < ((2 * a.fmod b : Int) : ℚ) := by exact_mod_cast h
      push_cast at h5
      linarith
  unfold roundHalfEvenFrac roundHalfEven
  rw [hfloor, hreq, hid2]
  by_cases hc1 : 2 * a.fmod b < b
  · rw [if_pos hc1, if_pos (h1.mpr hc1)]
  · rw [if_neg hc1, if_neg (fun hh => hc1 (h1.mp hh))]
    by_cases hc2 : 2 * a.fmod b > b
    · rw [if_pos hc2, if_pos (h2.mpr hc2)]
    · rw [if_neg hc2, if_neg (fun hh => hc2 (h2.mp hh))]

theorem pollAnswerPieces_int_eq (vm : Json) (hvm : jIntValues vm = true)
    (total : Int) (answers : List PollAnswer) :
    pollAnswerPieces vm total answers = Except.ok (answers.map (fun a =>
      pollLiPiece (arrowSub (htmlEscape (a.answer_text.getD "...")))
        (pctDisplay (answerVotes vm a) total))) := by
  induction answers with
  | nil => rfl
  | cons a rest ih =>
    cases vm with
    | obj kvs =>
      cases hc : a.client_id with
      | some cid =>
        cases hlk : jLookup kvs cid with
        | some v =>
          obtain ⟨n, hn⟩ := jLookup_int_values kvs hvm cid v hlk
          subst hn
          by_cases htot : total > 0 <;>
            simp [pollAnswerPieces, votesGet, answerVotes, hc, hlk, htot, ih, pctDisplay]
        | none =>
          by_cases htot : total > 0 <;>
            simp [pollAnswerPieces, votesGet, answerVotes, hc, hlk, htot, ih, pctDisplay]
      | none =>
        by_cases htot : total > 0 <;>
          simp [pollAnswerPieces, votesGet, answerVotes, hc, htot, ih, pctDisplay]
    | null => simp [jIntValues] at hvm
    | num n => simp [jIntValues] at hvm
    | str s => simp [jIntValues] at hvm
    | arr xs => simp [jIntValues] at hvm

theorem isTotalPiece_pollTotalPiece (t : Int) :
    isTotalPiece (pollTotalPiece t) = true := by
  unfold isTotalPiece pollTotalPiece
  simp only [String.data_append, List.append_assoc]
  rw [List.take_append_of_le_length (by decide)]
  decide

theorem isTotalPiece_pollQuestionPiece (q : String) :
    isTotalPiece (pollQuestionPiece q) = false := by
  unfold isTotalPiece pollQuestionPiece
  simp only [String.data_append, List.append_assoc]
  rw [List.take_append_of_le_length (by decide)]
  decide

theorem isTotalPiece_pollLiPiece (t : String) (p : Int) :
    isTotalPiece (pollLiPiece t p) = false := by
  unfold isTotalPiece pollLiPiece
  simp only [String.data_append, List.append_assoc]
  rw [List.take_append_of_le_length (by decide)]
  decide

/-- C5: poll percentage rendering.  A poll block (with an integer vote
dict) renders its answers as `pollPieces`: each answer's displayed
percentage is `pctDisplay` of its tally, which for a positive total is
`votes / totalVotes * 100` rounded to the nearest integer (ties to even,
as Python's `%.0f` rounds an exact value) and 0 when the total is 0, and
the total-votes line appears in the output exactly when the total is
positive. -/
theorem C5_poll_percentages (env : PollEnv) (apiKey blogName postId : Option String)
    (block : Block) (answers : List PollAnswer)
    (htype : block.type = some "poll")
    (hans : block.answers = some answers) (hne : answers ≠ [])
    (hvm : jIntValues (pollVm env apiKey blogName postId block).1 = true) :
    process_single_block env apiKey blogName postId block none =
      Except.ok (pollPieces (pollVm env apiKey blogName postId block)
        (block.question.getD "Poll") answers, [], none)
    ∧ (∀ v t : Int, 0 < t →
        pctDisplay v t = roundHalfEven ((v : ℚ) / (t : ℚ) * 100))
    ∧ (∀ v : Int, pctDisplay v 0 = 0)
    ∧ (pollTotalPiece (pollVm env apiKey blogName postId block).2 ∈
        pollPieces (pollVm env apiKey blogName postId block)
          (block.question.getD "Poll") answers ↔
        0 < (pollVm env apiKey blogName postId block).2) := by
  refine ⟨?_, ?_, ?_, ?_⟩
  · unfold process_single_block
    rw [if_neg (by simp [htype]), if_neg (by simp [htype]), if_pos htype]
    rw [hans]
    simp only [Option.getD_some]
    rw [if_pos hne]
    rw [pollAnswerPieces_int_eq _ hvm]
    simp [pollPieces, truthyOpt]
  · intro v t ht
    rw [pctDisplay, if_pos ht, roundHalfEvenFrac_eq_rat _ _ ht]
    congr 1
    push_cast
    ring
  · intro v
    simp [pctDisplay]
  · constructor
    · intro hmem
      by_contra htot
      rw [pollPieces, if_neg htot] at hmem
      simp only [List.append_nil, List.mem_append, List.mem_cons, List.not_mem_nil,
        or_false, List.mem_map] at hmem
      rcases hmem with (((h | h | h) | ⟨a, _, h⟩) | h) | h
      · exact absurd (congrArg isTotalPiece h)
          (by rw [isTotalPiece_pollTotalPiece]; decide)
      · have hq := congrArg isTotalPiece h
        rw [isTotalPiece_pollTotalPiece, isTotalPiece_pollQuestionPiece] at hq
        cases hq
      · exact absurd (congrArg isTotalPiece h)
          (by rw [isTotalPiece_pollTotalPiece]; decide)
      · have hq := congrArg isTotalPiece h
        rw [isTotalPiece_pollLiPiece, isTotalPiece_pollTotalPiece] at hq
        cases hq
      · exact absurd (congrArg isTotalPiece h)
          (by rw [isTotalPiece_pollTotalPiece]; decide)
      · exact absurd (congrArg isTotalPiece h)
          (by rw [isTotalPiece_pollTotalPiece]; decide)
    · intro htot
      rw [pollPieces, if_pos htot]
      simp

/-- Witness for `C5_poll_percentages`: tallies 3, 1, 0 with total 4
display as 75, 25, 0 (the spec's example), and the fetched total is 4. -/
theorem C5_poll_percentages_witness :
    process_single_block votes310Env (some "k") (some "blog") (some "1") poll310Block none =
      Except.ok (pollPieces (pollVm votes310Env (some "k") (some "blog") (some "1") poll310Block)
        (poll310Block.question.getD "Poll") (poll310Block.answers.getD []), [], none)
    ∧ pctDisplay 3 4 = 75 ∧ pctDisplay 1 4 = 25 ∧ pctDisplay 0 4 = 0
    ∧ (pollVm votes310Env (some "k") (some "blog") (some "1") poll310Block).2 = 4 := by
  refine ⟨?_, by decide, by decide, by decide, by rfl⟩
  exact (C5_poll_percentages votes310Env (some "k") (some "blog") (some "1") poll310Block
    (poll310Block.answers.getD []) rfl rfl (by decide) (by rfl)).1

theorem resolveCurrentPostId_final (r : String) (l : ChainLink) :
    resolveCurrentPostId r true l = r := by
  simp [resolveCurrentPostId]

/-- C9: empty final-reblogger suppression.  (a) When the final chain link
(the subject post, rendered as the last reblogger) has an author and
content but its rendered html strips to empty, it contributes no
fragment.  (b) `chainFragments` then equals the concatenation of the
trail links' fragments alone, in chain order.  (c) A non-final link with
a parsed rendering — even an empty one — is not suppressed: it always
emits its reblog block. -/
theorem C9_empty_final_reblogger {DT : Type} (strf : DT → Option String)
    (strptime : String → Option DT) (fromts : Int → Option DT)
    (env : PollEnv) (apiKey : Option String) (p : Post) (u : String)
    (pr : String × List String)
    (htrail : p.trail ≠ [])
    (husr : linkUsername p.toLink = some u) (hu : u ≠ "")
    (hcontent : p.content ≠ [])
    (hparse : parse_api_content env apiKey p.content p.layout none (some u)
      (some (toString p.id)) = Except.ok pr)
    (hempty : pyStrip pr.1 = "") :
    linkFragment strf strptime fromts env apiKey p (fullChain p).length
      ((fullChain p).length - 1) p.toLink = Except.ok []
    ∧ (∀ (front : List String),
        p.trail.enum.foldlM (fun acc q =>
          match linkFragment strf strptime fromts env apiKey p (fullChain p).length
              q.1 q.2 with
          | Except.error e => Except.error e
          | Except.ok fs => Except.ok (acc ++ fs)) [] = Except.ok front →
        chainFragments strf strptime fromts env apiKey p = Except.ok front)
    ∧ (∀ (i : Nat) (l : ChainLink) (u2 : String) (pr2 : String × List String),
        i ≠ 0 → ¬ (i = (fullChain p).length - 1) →
        linkUsername l = some u2 → u2 ≠ "" → l.content ≠ [] →
        parse_api_content env apiKey l.content l.layout none (some u2)
          (some (resolveCurrentPostId (toString p.id) false l)) = Except.ok pr2 →
        linkFragment strf strptime fromts env apiKey p (fullChain p).length i l =
          Except.ok [format_reblog_block u2
            (format_datetime_for_display strf
              (if ((l.post.bind PostRef.date).getD "") = "" then none
               else strptime ((l.post.bind PostRef.date).getD "")))
            pr2.1]) := by
  have hlen : (fullChain p).length = p.trail.length + 1 := by
    rw [fullChain, if_neg htrail]
    simp
  have hpos : 0 < p.trail.length := List.length_pos.mpr htrail
  have hfinal : linkFragment strf strptime fromts env apiKey p (fullChain p).length
      ((fullChain p).length - 1) p.toLink = Except.ok [] := by
    unfold linkFragment
    rw [husr, hlen]
    simp only [truthyOpt, Option.getD_some]
    have hg : ¬ (¬ decide (u ≠ "") = true ∨
        ¬ (p.trail.length + 1 - 1 = 0) ∧ p.toLink.content = []) := by
      push_neg
      refine ⟨by simpa using hu, fun _ => ?_⟩
      show p.content ≠ []
      exact hcontent
    rw [if_neg hg]
    rw [if_neg (show ¬ (p.trail.length + 1 - 1 = 0) from by omega)]
    rw [show (decide True) = true from rfl]
    rw [resolveCurrentPostId_final]
    rw [show p.toLink.content = p.content from rfl, show p.toLink.layout = p.layout from rfl]
    rw [hparse]
    simp [hempty]
  refine ⟨hfinal, ?_, ?_⟩
  · intro front hfront
    have hchain : fullChain p = p.trail ++ [p.toLink] := by
      rw [fullChain, if_neg htrail]
    have hfin2 : linkFragment strf strptime fromts env apiKey p
        (p.trail ++ [p.toLink]).length p.trail.length p.toLink = Except.ok [] := by
      have h2 := hfinal
      rw [hchain] at h2
      simpa using h2
    simp only [chainFragments]
    rw [hchain] at hfront ⊢
    rw [List.enum_append, List.foldlM_append, hfront]
    simp only [List.enumFrom, List.foldlM_cons, List.foldlM_nil]
    simp only [List.length_append, List.length_cons, List.length_nil, Nat.add_zero] at hfin2 ⊢
    rw [hfin2]
    simp only [List.append_nil]
    rfl
  · intro i l u2 pr2 hi0 hif husr2 hu2 hcontent2 hparse2
    unfold linkFragment
    rw [husr2]
    simp only [truthyOpt, Option.getD_some]
    have hg : ¬ (¬ decide (u2 ≠ "") = true ∨ ¬ (i = 0) ∧ l.content = []) := by
      push_neg
      refine ⟨by simpa using hu2, fun _ => hcontent2⟩
    rw [if_neg hg]
    rw [if_neg hi0]
    rw [show (decide (i = (fullChain p).length - 1)) = false from by simp [hif]]
    rw [hparse2]
    simp [hif]

/-- Witness for `C9_empty_final_reblogger`: a post whose own content is a
single unknown-type block (rendering to "") after one trail link; the
final reblog block is suppressed and the body consists of the trail
link's fragments alone. -/
theorem C9_empty_final_reblogger_witness :
    @linkFragment Unit (fun _ => none) (fun _ => none) (fun _ => none) dummyEnv none
      cexSubjPost (fullChain cexSubjPost).length ((fullChain cexSubjPost).length - 1)
      cexSubjPost.toLink = Except.ok []
    ∧ @chainFragments Unit (fun _ => none) (fun _ => none) (fun _ => none) dummyEnv
      none cexSubjPost = Except.ok
        ["<div class=\"op-block\">\n  <p class=\"user-info\">alice</p>\n  <p class=\"posted\">Posted 路 <span>???</span></p>\n</div>",
         "<div class=\"op-content\">\n<p>hello</p>\n</div>\n"] := by
  have h := @C9_empty_final_reblogger Unit (fun _ => none) (fun _ => none)
    (fun _ => none) dummyEnv none cexSubjPost "bob" ("", [])
    (by decide) rfl (by decide) (by decide) rfl rfl
  exact ⟨h.1, h.2.1 _ rfl⟩

theorem take_prefix_eq {l : List Char} {n : Nat} {pat : List Char} (k : Nat) (hn : k ≤ n)
    (h : l.take n = pat) : l.take k = pat.take k := by
  have h2 := congrArg (List.take k) h
  rwa [List.take_take, Nat.min_eq_left hn] at h2

theorem deltas_zero_lt (s : String) (c : Char)
    (hd : s.data.take 2 = ['<', c]) (hu : c ≠ 'u') (ho : c ≠ 'o') (hsl : c ≠ '/') :
    ulDelta s = 0 ∧ olDelta s = 0 := by
  have huo : ulOpenP s.data = false := by
    simp only [ulOpenP, Bool.or_eq_false_iff, decide_eq_false_iff_not]
    constructor
    · intro hx
      have h2 := take_prefix_eq 2 (by omega) hx
      rw [hd] at h2
      simp at h2
      exact hu h2
    · intro hx
      have h2 := take_prefix_eq 2 (by omega) hx
      rw [hd] at h2
      simp at h2
  have huc : ulCloseP s.data = false := by
    simp only [ulCloseP, Bool.or_eq_false_iff, decide_eq_false_iff_not]
    constructor
    · intro hx
      have h2 := take_prefix_eq 2 (by omega) hx
      rw [hd] at h2
      simp at h2
      exact hsl h2
    · intro hx
      have h2 := take_prefix_eq 2 (by omega) hx
      rw [hd] at h2
      simp at h2
  have hoo : olOpenP s.data = false := by
    simp only [olOpenP, Bool.or_eq_false_iff, decide_eq_false_iff_not]
    constructor
    · intro hx
      have h2 := take_prefix_eq 2 (by omega) hx
      rw [hd] at h2
      simp at h2
      exact ho h2
    · intro hx
      have h2 := take_prefix_eq 2 (by omega) hx
      rw [hd] at h2
      simp at h2
  have hoc : olCloseP s.data = false := by
    simp only [olCloseP, Bool.or_eq_false_iff, decide_eq_false_iff_not]
    constructor
    · intro hx
      have h2 := take_prefix_eq 2 (by omega) hx
      rw [hd] at h2
      simp at h2
      exact hsl h2
    · intro hx
      have h2 := take_prefix_eq 2 (by omega) hx
      rw [hd] at h2
      simp at h2
  simp [ulDelta, olDelta, huo, huc, hoo, hoc]

theorem deltas_zero_indent (s : String) (c : Char)
    (hd : s.data.take 4 = [' ', ' ', '<', c])
    (hu : c ≠ 'u') (ho : c ≠ 'o') (hsl : c ≠ '/') :
    ulDelta s = 0 ∧ olDelta s = 0 := by
  have h3 : s.data.take 3 = [' ', ' ', '<'] := by
    have h2 := take_prefix_eq 3 (by omega) hd
    simpa using h2
  have huo : ulOpenP s.data = false := by
    simp only [ulOpenP, Bool.or_eq_false_iff, decide_eq_false_iff_not]
    constructor
    · intro hx
      have h2 := take_prefix_eq 3 (by omega) hx
      rw [h3] at h2
      simp at h2
    · intro hx
      have h2 := take_prefix_eq 4 (by omega) hx
      rw [hd] at h2
      simp at h2
      exact hu h2
  have huc : ulCloseP s.data = false := by
    simp only [ulCloseP, Bool.or_eq_false_iff, decide_eq_false_iff_not]
    constructor
    · intro hx
      have h2 := take_prefix_eq 3 (by omega) hx
      rw [h3] at h2
      simp at h2
    · intro hx
      have h2 := take_prefix_eq 4 (by omega) hx
      rw [hd] at h2
      simp at h2
      exact hsl h2
  have hoo : olOpenP s.data = false := by
    simp only [olOpenP, Bool.or_eq_false_iff, decide_eq_false_iff_not]
    constructor
    · intro hx
      have h2 := take_prefix_eq 3 (by omega) hx
      rw [h3] at h2
      simp at h2
    · intro hx
      have h2 := take_prefix_eq 4 (by omega) hx
      rw [hd] at h2
      simp at h2
      exact ho h2
  have hoc : olCloseP s.data = false := by
    simp only [olCloseP, Bool.or_eq_false_iff, decide_eq_false_iff_not]
    constructor
    · intro hx
      have h2 := take_prefix_eq 3 (by omega) hx
      rw [h3] at h2
      simp at h2
    · intro hx
      have h2 := take_prefix_eq 4 (by omega) hx
      rw [hd] at h2
      simp at h2
      exact hsl h2
  simp [ulDelta, olDelta, huo, huc, hoo, hoc]

theorem deltas_zero_indent4 (s : String)
    (hd : s.data.take 3 = [' ', ' ', ' ']) :
    ulDelta s = 0 ∧ olDelta s = 0 := by
  have hall : ∀ (n : Nat) (pat : List Char), 3 ≤ n → pat.take 3 ≠ [' ', ' ', ' '] →
      s.data.take n ≠ pat := by
    intro n pat hn hp hx
    have h2 := take_prefix_eq 3 hn hx
    rw [hd] at h2
    exact hp h2.symm
  have huo : ulOpenP s.data = false := by
    simp only [ulOpenP, Bool.or_eq_false_iff, decide_eq_false_iff_not]
    exact ⟨hall 3 _ (by omega) (by decide), hall 5 _ (by omega) (by decide)⟩
  have huc : ulCloseP s.data = false := by
    simp only [ulCloseP, Bool.or_eq_false_iff, decide_eq_false_iff_not]
    exact ⟨hall 4 _ (by omega) (by decide), hall 6 _ (by omega) (by decide)⟩
  have hoo : olOpenP s.data = false := by
    simp only [olOpenP, Bool.or_eq_false_iff, decide_eq_false_iff_not]
    exact ⟨hall 3 _ (by omega) (by decide), hall 5 _ (by omega) (by decide)⟩
  have hoc : olCloseP s.data = false := by
    simp only [olCloseP, Bool.or_eq_false_iff, decide_eq_false_iff_not]
    exact ⟨hall 4 _ (by omega) (by decide), hall 6 _ (by omega) (by decide)⟩
  simp [ulDelta, olDelta, huo, huc, hoo, hoc]

theorem deltas_zero_close (s : String) (c : Char)
    (hd : s.data.take 3 = ['<', '/', c]) (hu : c ≠ 'u') (ho : c ≠ 'o') :
    ulDelta s = 0 ∧ olDelta s = 0 := by
  have huo : ulOpenP s.data = false := by
    simp only [ulOpenP, Bool.or_eq_false_iff, decide_eq_false_iff_not]
    constructor
    · intro hx
      rw [hd] at hx
      simp at hx
    · intro hx
      have h2 := take_prefix_eq 3 (by omega) hx
      rw [hd] at h2
      simp at h2
  have huc : ulCloseP s.data = false := by
    simp only [ulCloseP, Bool.or_eq_false_iff, decide_eq_false_iff_not]
    constructor
    · intro hx
      have h2 := take_prefix_eq 3 (by omega) hx
      rw [hd] at h2
      simp at h2
      exact hu h2
    · intro hx
      have h2 := take_prefix_eq 3 (by omega) hx
      rw [hd] at h2
      simp at h2
  have hoo : olOpenP s.data = false := by
    simp only [olOpenP, Bool.or_eq_false_iff, decide_eq_false_iff_not]
    constructor
    · intro hx
      rw [hd] at hx
      simp at hx
    · intro hx
      have h2 := take_prefix_eq 3 (by omega) hx
      rw [hd] at h2
      simp at h2
  have hoc : olCloseP s.data = false := by
    simp only [olCloseP, Bool.or_eq_false_iff, decide_eq_false_iff_not]
    constructor
    · intro hx
      have h2 := take_prefix_eq 3 (by omega) hx
      rw [hd] at h2
      simp at h2
      exact ho h2
    · intro hx
      have h2 := take_prefix_eq 3 (by omega) hx
      rw [hd] at h2
      simp at h2
  simp [ulDelta, olDelta, huo, huc, hoo, hoc]

theorem deltas_p_piece (t : String) :
    ulDelta ("<p>" ++ t ++ "</p>\n") = 0 ∧ olDelta ("<p>" ++ t ++ "</p>\n") = 0 :=
  deltas_zero_lt _ 'p' (by simp [String.data_append, List.take])
    (by decide) (by decide) (by decide)

theorem deltas_li_piece (t : String) :
    ulDelta ("<li>" ++ t ++ "</li>\n") = 0 ∧ olDelta ("<li>" ++ t ++ "</li>\n") = 0 :=
  deltas_zero_lt _ 'l' (by simp [String.data_append, List.take])
    (by decide) (by decide) (by decide)

theorem deltas_img_piece (u a : String) :
    ulDelta ("<img src=\"" ++ u ++ "\" alt=\"" ++ a ++ "\">\n") = 0 ∧
    olDelta ("<img src=\"" ++ u ++ "\" alt=\"" ++ a ++ "\">\n") = 0 :=
  deltas_zero_lt _ 'i' (by simp [String.data_append, List.take])
    (by decide) (by decide) (by decide)

theorem deltas_divrow_piece (n : Nat) :
    ulDelta ("<div class=\"image-row-" ++ toString n ++ "\">\n") = 0 ∧
    olDelta ("<div class=\"image-row-" ++ toString n ++ "\">\n") = 0 :=
  deltas_zero_lt _ 'd' (by simp [String.data_append, List.take])
    (by decide) (by decide) (by decide)

theorem deltas_question_piece (q : String) :
    ulDelta (pollQuestionPiece q) = 0 ∧ olDelta (pollQuestionPiece q) = 0 :=
  deltas_zero_indent _ 'p' (by simp [pollQuestionPiece, String.data_append, List.take])
    (by decide) (by decide) (by decide)

theorem deltas_total_piece (t : Int) :
    ulDelta (pollTotalPiece t) = 0 ∧ olDelta (pollTotalPiece t) = 0 :=
  deltas_zero_indent _ 'p' (by simp [pollTotalPiece, String.data_append, List.take])
    (by decide) (by decide) (by decide)

theorem deltas_pollli_piece (t : String) (p : Int) :
    ulDelta (pollLiPiece t p) = 0 ∧ olDelta (pollLiPiece t p) = 0 :=
  deltas_zero_indent4 _ (by simp [pollLiPiece, String.data_append, List.take])

theorem sumUl_append (l1 l2 : List String) : sumUl (l1 ++ l2) = sumUl l1 + sumUl l2 := by
  simp [sumUl]

theorem sumOl_append (l1 l2 : List String) : sumOl (l1 ++ l2) = sumOl l1 + sumOl l2 := by
  simp [sumOl]

theorem ulDelta_ul_open : ulDelta "<ul>\n" = 1 := by decide
theorem ulDelta_ul_close : ulDelta "</ul>\n" = -1 := by decide
theorem ulDelta_ol_open : ulDelta "<ol>\n" = 0 := by decide
theorem ulDelta_ol_close : ulDelta "</ol>\n" = 0 := by decide
theorem olDelta_ul_open : olDelta "<ul>\n" = 0 := by decide
theorem olDelta_ul_close : olDelta "</ul>\n" = 0 := by decide
theorem olDelta_ol_open : olDelta "<ol>\n" = 1 := by decide
theorem olDelta_ol_close : olDelta "</ol>\n" = -1 := by decide
theorem ulDelta_pollul_open : ulDelta "  <ul class=\"poll-options\">\n" = 1 := by decide
theorem ulDelta_pollul_close : ulDelta "  </ul>\n" = -1 := by decide
theorem olDelta_pollul_open : olDelta "  <ul class=\"poll-options\">\n" = 0 := by decide
theorem olDelta_pollul_close : olDelta "  </ul>\n" = 0 := by decide
theorem ulDelta_divclose : ulDelta "</div>\n" = 0 := by decide
theorem olDelta_divclose : olDelta "</div>\n" = 0 := by decide
theorem ulDelta_polldiv_open : ulDelta "<div class=\"poll-block\">\n" = 0 := by decide
theorem olDelta_polldiv_open : olDelta "<div class=\"poll-block\">\n" = 0 := by decide

theorem textPieces_delta (st : Option String) (text : String) (a1 : Option String)
    (ha : goodCtx a1) :
    goodCtx (textPieces st text a1).2
    ∧ sumUl (textPieces st text a1).1 = ulInd (textPieces st text a1).2 - ulInd a1
    ∧ sumOl (textPieces st text a1).1 = olInd (textPieces st text a1).2 - olInd a1 := by
  have hwrap : ∀ (tag : String), tag = "h1" ∨ tag = "h2" ∨ tag = "blockquote" ∨
      tag = "p class=\"chat-style\"" ∨ tag = "p class=\"quirky-style\"" →
      ulDelta (wrapTag tag text) = 0 ∧ olDelta (wrapTag tag text) = 0 := by
    intro tag htag
    rcases htag with rfl | rfl | rfl | rfl | rfl
    · exact deltas_zero_lt _ 'h' (by simp [wrapTag, tagHead, String.data_append, List.take])
        (by decide) (by decide) (by decide)
    · exact deltas_zero_lt _ 'h' (by simp [wrapTag, tagHead, String.data_append, List.take])
        (by decide) (by decide) (by decide)
    · exact deltas_zero_lt _ 'b' (by simp [wrapTag, tagHead, String.data_append, List.take])
        (by decide) (by decide) (by decide)
    · exact deltas_zero_lt _ 'p' (by simp [wrapTag, tagHead, String.data_append, List.take])
        (by decide) (by decide) (by decide)
    · exact deltas_zero_lt _ 'p' (by simp [wrapTag, tagHead, String.data_append, List.take])
        (by decide) (by decide) (by decide)
  cases st with
  | none =>
    refine ⟨ha, ?_, ?_⟩ <;>
      simp [textPieces, sumUl, sumOl, (deltas_p_piece text).1, (deltas_p_piece text).2]
  | some s =>
    by_cases h1 : s = "heading1"
    · refine ⟨?_, ?_, ?_⟩ <;>
        simp [textPieces, tagMap, h1, sumUl, sumOl, ha,
          (hwrap "h1" (by simp)).1, (hwrap "h1" (by simp)).2]
    · by_cases h2 : s = "heading2"
      · refine ⟨?_, ?_, ?_⟩ <;>
          simp [textPieces, tagMap, h1, h2, sumUl, sumOl, ha,
            (hwrap "h2" (by simp)).1, (hwrap "h2" (by simp)).2]
      · by_cases h3 : s = "quote"
        · refine ⟨?_, ?_, ?_⟩ <;>
            simp [textPieces, tagMap, h1, h2, h3, sumUl, sumOl, ha,
              (hwrap "blockquote" (by simp)).1, (hwrap "blockquote" (by simp)).2]
        · by_cases h4 : s = "indented"
          · refine ⟨?_, ?_, ?_⟩ <;>
              simp [textPieces, tagMap, h1, h2, h3, h4, sumUl, sumOl, ha,
                (hwrap "blockquote" (by simp)).1, (hwrap "blockquote" (by simp)).2]
          · by_cases h5 : s = "chat"
            · refine ⟨?_, ?_, ?_⟩ <;>
                simp [textPieces, tagMap, h1, h2, h3, h4, h5, sumUl, sumOl, ha,
                  (hwrap _ (by right; right; right; left; rfl)).1,
                  (hwrap _ (by right; right; right; left; rfl)).2]
            · by_cases h6 : s = "quirky"
              · refine ⟨?_, ?_, ?_⟩ <;>
                  simp [textPieces, tagMap, h1, h2, h3, h4, h5, h6, sumUl, sumOl, ha,
                    (hwrap _ (by right; right; right; right; rfl)).1,
                    (hwrap _ (by right; right; right; right; rfl)).2]
              · have htm : tagMap s = none := by simp [tagMap, h1, h2, h3, h4, h5, h6]
                by_cases hul : s = "unordered-list-item"
                · subst hul
                  rcases ha with rfl | rfl | rfl
                  · refine ⟨?_, ?_, ?_⟩ <;>
                      simp [textPieces, htm, truthyOpt, sumUl, sumOl, ulInd, olInd,
                        (deltas_li_piece text).1, (deltas_li_piece text).2, goodCtx,
                        ulDelta_ul_open, ulDelta_ul_close, ulDelta_ol_open, ulDelta_ol_close,
                        olDelta_ul_open, olDelta_ul_close, olDelta_ol_open, olDelta_ol_close]
                  · refine ⟨?_, ?_, ?_⟩ <;>
                      simp [textPieces, htm, truthyOpt, sumUl, sumOl, ulInd, olInd,
                        (deltas_li_piece text).1, (deltas_li_piece text).2, goodCtx,
                        ulDelta_ul_open, ulDelta_ul_close, ulDelta_ol_open, ulDelta_ol_close,
                        olDelta_ul_open, olDelta_ul_close, olDelta_ol_open, olDelta_ol_close]
                  · refine ⟨?_, ?_, ?_⟩ <;>
                      simp [textPieces, htm, truthyOpt, sumUl, sumOl, ulInd, olInd,
                        (deltas_li_piece text).1, (deltas_li_piece text).2, goodCtx,
                        ulDelta_ul_open, ulDelta_ul_close, ulDelta_ol_open, ulDelta_ol_close,
                        olDelta_ul_open, olDelta_ul_close, olDelta_ol_open, olDelta_ol_close]
                · by_cases hol : s = "ordered-list-item"
                  · subst hol
                    rcases ha with rfl | rfl | rfl
                    · refine ⟨?_, ?_, ?_⟩ <;>
                        simp [textPieces, htm, truthyOpt, sumUl, sumOl, ulInd, olInd,
                          (deltas_li_piece text).1, (deltas_li_piece text).2, goodCtx,
                          ulDelta_ul_open, ulDelta_ul_close, ulDelta_ol_open, ulDelta_ol_close,
                          olDelta_ul_open, olDelta_ul_close, olDelta_ol_open, olDelta_ol_close]
                    · refine ⟨?_, ?_, ?_⟩ <;>
                        simp [textPieces, htm, truthyOpt, sumUl, sumOl, ulInd, olInd,
                          (deltas_li_piece text).1, (deltas_li_piece text).2, goodCtx,
                          ulDelta_ul_open, ulDelta_ul_close, ulDelta_ol_open, ulDelta_ol_close,
                          olDelta_ul_open, olDelta_ul_close, olDelta_ol_open, olDelta_ol_close]
                    · refine ⟨?_, ?_, ?_⟩ <;>
                        simp [textPieces, htm, truthyOpt, sumUl, sumOl, ulInd, olInd,
                          (deltas_li_piece text).1, (deltas_li_piece text).2, goodCtx,
                          ulDelta_ul_open, ulDelta_ul_close, ulDelta_ol_open, ulDelta_ol_close,
                          olDelta_ul_open, olDelta_ul_close, olDelta_ol_open, olDelta_ol_close]
                  · refine ⟨?_, ?_, ?_⟩ <;>
                      simp [textPieces, htm, hul, hol, sumUl, sumOl, ha,
                        (deltas_p_piece text).1, (deltas_p_piece text).2]
theorem pollAnswerPieces_delta (vm : Json) (total : Int) (answers : List PollAnswer) :
    ∀ (l : List String), pollAnswerPieces vm total answers = Except.ok l →
    sumUl l = 0 ∧ sumOl l = 0 := by
  induction answers with
  | nil =>
    intro l h
    rw [pollAnswerPieces] at h
    injection h with h
    subst h
    simp [sumUl, sumOl]
  | cons a rest ih =>
    intro l h
    rw [pollAnswerPieces] at h
    cases hv : votesGet vm a.client_id with
    | error e => simp only [hv] at h; cases h
    | ok votes =>
      simp only [hv] at h
      by_cases ht : total > 0
      · rw [if_pos ht] at h
        cases votes with
        | num v =>
          simp only at h
          cases hr : pollAnswerPieces vm total rest with
          | error e => simp only [hr] at h; cases h
          | ok l2 =>
            simp only [hr] at h
            injection h with h
            subst h
            obtain ⟨ih1, ih2⟩ := ih l2 hr
            constructor
            · simp [sumUl, (deltas_pollli_piece _ _).1]
              simpa [sumUl] using ih1
            · simp [sumOl, (deltas_pollli_piece _ _).2]
              simpa [sumOl] using ih2
        | null => cases h
        | str s => cases h
        | arr xs => cases h
        | obj kvs => cases h
      · rw [if_neg ht] at h
        simp only at h
        cases hr : pollAnswerPieces vm total rest with
        | error e => simp only [hr] at h; cases h
        | ok l2 =>
          simp only [hr] at h
          injection h with h
          subst h
          obtain ⟨ih1, ih2⟩ := ih l2 hr
          constructor
          · simp [sumUl, (deltas_pollli_piece _ _).1]
            simpa [sumUl] using ih1
          · simp [sumOl, (deltas_pollli_piece _ _).2]
            simpa [sumOl] using ih2
theorem closePieces_delta (act : Option String) (hact : goodCtx act) (b : Bool) :
    goodCtx (if truthyOpt act && !b then none else act)
    ∧ sumUl (if truthyOpt act && !b then (["</" ++ act.getD "" ++ ">\n"] : List String) else [])
        = ulInd (if truthyOpt act && !b then none else act) - ulInd act
    ∧ sumOl (if truthyOpt act && !b then (["</" ++ act.getD "" ++ ">\n"] : List String) else [])
        = olInd (if truthyOpt act && !b then none else act) - olInd act := by
  rcases hact with rfl | rfl | rfl <;> cases b <;>
    exact ⟨by unfold goodCtx ; decide, by decide, by decide⟩

theorem totalPieces_delta (c : Prop) [Decidable c] (t : Int) :
    sumUl (if c then [pollTotalPiece t] else []) = 0
    ∧ sumOl (if c then [pollTotalPiece t] else []) = 0 := by
  constructor <;> split <;>
    simp [sumUl, sumOl, (deltas_total_piece t).1, (deltas_total_piece t).2]

theorem process_single_block_delta (env : PollEnv) (apiKey blogName postId : Option String)
    (block : Block) (act : Option String) (ps ms : List String) (act1 : Option String)
    (hact : goodCtx act)
    (h : process_single_block env apiKey blogName postId block act
          = Except.ok (ps, ms, act1)) :
    goodCtx act1 ∧ sumUl ps = ulInd act1 - ulInd act ∧ sumOl ps = olInd act1 - olInd act := by
  have hcp := closePieces_delta act hact
    (block.subtype == some "ordered-list-item" || block.subtype == some "unordered-list-item")
  simp only [process_single_block] at h
  by_cases htxt : block.type = some "text"
  · rw [if_pos htxt] at h
    cases hsv : validateSpans (block.formatting.getD []) with
    | error e => simp only [hsv] at h; cases h
    | ok spans =>
      simp only [hsv] at h
      injection h with h
      simp only [Prod.mk.injEq] at h
      obtain ⟨hps, hms, ha1⟩ := h
      subst hps; subst hms; subst ha1
      have htp := textPieces_delta block.subtype
        (renderedText (block.text.getD "") spans)
        (if truthyOpt act &&
            !(block.subtype == some "ordered-list-item" ||
              block.subtype == some "unordered-list-item") then none else act)
        hcp.1
      refine ⟨htp.1, ?_, ?_⟩
      · rw [sumUl_append, hcp.2.1, htp.2.1]; ring
      · rw [sumOl_append, hcp.2.2, htp.2.2]; ring
  · rw [if_neg htxt] at h
    by_cases himg : block.type = some "image" ∧ (block.media.getD []) ≠ []
    · rw [if_pos himg] at h
      cases hmed : block.media with
      | none => simp only [hmed] at h; cases h
      | some items =>
        cases items with
        | nil => simp only [hmed] at h; cases h
        | cons item tail =>
          simp only [hmed] at h
          cases hu : item.url with
          | none => simp only [hu] at h; cases h
          | some url =>
            simp only [hu] at h
            injection h with h
            simp only [Prod.mk.injEq] at h
            obtain ⟨hps, hms, ha1⟩ := h
            subst hps; subst hms; subst ha1
            refine ⟨hcp.1, ?_, ?_⟩
            · rw [sumUl_append, hcp.2.1]
              simp [sumUl,
                (deltas_img_piece url (htmlEscape (block.alt_text.getD "Tumblr Image"))).1]
            · rw [sumOl_append, hcp.2.2]
              simp [sumOl,
                (deltas_img_piece url (htmlEscape (block.alt_text.getD "Tumblr Image"))).2]
    · rw [if_neg himg] at h
      by_cases hpoll : block.type = some "poll"
      · rw [if_pos hpoll] at h
        by_cases hda : (block.answers.getD []) ≠ []
        · rw [if_pos hda] at h
          cases hpa : pollAnswerPieces (pollVm env apiKey blogName postId block).1
              (pollVm env apiKey blogName postId block).2 (block.answers.getD []) with
          | error e => simp only [hpa] at h; cases h
          | ok l =>
            simp only [hpa] at h
            injection h with h
            simp only [Prod.mk.injEq] at h
            obtain ⟨hps, hms, ha1⟩ := h
            subst hps; subst hms; subst ha1
            obtain ⟨hl1, hl2⟩ := pollAnswerPieces_delta _ _ _ l hpa
            have htot := totalPieces_delta
              ((pollVm env apiKey blogName postId block).2 > 0)
              (pollVm env apiKey blogName postId block).2
            refine ⟨hcp.1, ?_, ?_⟩
            · simp only [sumUl_append, hcp.2.1, htot.1]
              simp [sumUl, ulDelta_polldiv_open, ulDelta_divclose,
                ulDelta_pollul_open, ulDelta_pollul_close,
                (deltas_question_piece (block.question.getD "Poll")).1]
              exact hl1
            · simp only [sumOl_append, hcp.2.2, htot.2]
              simp [sumOl, olDelta_polldiv_open, olDelta_divclose,
                olDelta_pollul_open, olDelta_pollul_close,
                (deltas_question_piece (block.question.getD "Poll")).2]
              exact hl2
        · rw [if_neg hda] at h
          injection h with h
          simp only [Prod.mk.injEq] at h
          obtain ⟨hps, hms, ha1⟩ := h
          subst hps; subst hms; subst ha1
          have htot := totalPieces_delta
            ((pollVm env apiKey blogName postId block).2 > 0)
            (pollVm env apiKey blogName postId block).2
          refine ⟨hcp.1, ?_, ?_⟩
          · simp only [sumUl_append, hcp.2.1, htot.1]
            simp [sumUl, ulDelta_polldiv_open, ulDelta_divclose,
              (deltas_question_piece (block.question.getD "Poll")).1]
          · simp only [sumOl_append, hcp.2.2, htot.2]
            simp [sumOl, olDelta_polldiv_open, olDelta_divclose,
              (deltas_question_piece (block.question.getD "Poll")).2]
      · rw [if_neg hpoll] at h
        injection h with h
        simp only [Prod.mk.injEq] at h
        obtain ⟨hps, hms, ha1⟩ := h
        subst hps; subst hms; subst ha1
        exact ⟨hcp.1, hcp.2.1, hcp.2.2⟩
theorem renderBlocks_delta (env : PollEnv) (apiKey blogName postId : Option String)
    (bs : List Block) :
    ∀ (act : Option String) (ps ms : List String) (act1 : Option String),
    goodCtx act →
    renderBlocks env apiKey blogName postId bs act = Except.ok (ps, ms, act1) →
    goodCtx act1 ∧ sumUl ps = ulInd act1 - ulInd act ∧ sumOl ps = olInd act1 - olInd act := by
  induction bs with
  | nil =>
    intro act ps ms act1 hact h
    rw [renderBlocks] at h
    injection h with h
    simp only [Prod.mk.injEq] at h
    obtain ⟨hps, hms, ha1⟩ := h
    subst hps; subst hms; subst ha1
    exact ⟨hact, by simp [sumUl], by simp [sumOl]⟩
  | cons b rest ih =>
    intro act ps ms act1 hact h
    rw [renderBlocks] at h
    cases hb : process_single_block env apiKey blogName postId b act with
    | error e => simp only [hb] at h; cases h
    | ok triple =>
      obtain ⟨p1, m1, a1⟩ := triple
      simp only [hb] at h
      cases hr : renderBlocks env apiKey blogName postId rest a1 with
      | error e => simp only [hr] at h; cases h
      | ok triple2 =>
        obtain ⟨p2, m2, a2⟩ := triple2
        simp only [hr] at h
        injection h with h
        simp only [Prod.mk.injEq] at h
        obtain ⟨hps, hms, ha1⟩ := h
        subst hps; subst hms; subst ha1
        obtain ⟨hg1, hu1, ho1⟩ :=
          process_single_block_delta env apiKey blogName postId b act p1 m1 a1 hact hb
        obtain ⟨hg2, hu2, ho2⟩ := ih a1 p2 m2 a2 hg1 hr
        refine ⟨hg2, ?_, ?_⟩
        · rw [sumUl_append, hu1, hu2]; ring
        · rw [sumOl_append, ho1, ho2]; ring

theorem renderIndexed_delta (env : PollEnv) (apiKey blogName postId : Option String)
    (blocks : List Block) (idxs : List Nat) (act : Option String)
    (ps ms : List String) (act1 : Option String) (hact : goodCtx act)
    (h : renderIndexed env apiKey blogName postId blocks idxs act = Except.ok (ps, ms, act1)) :
    goodCtx act1 ∧ sumUl ps = ulInd act1 - ulInd act ∧ sumOl ps = olInd act1 - olInd act := by
  rw [renderIndexed] at h
  cases hg : getBlocks blocks idxs with
  | error e => simp only [hg] at h; cases h
  | ok bs =>
    simp only [hg] at h
    exact renderBlocks_delta env apiKey blogName postId bs act ps ms act1 hact h

theorem renderRow_delta (env : PollEnv) (apiKey blogName postId : Option String)
    (blocks : List Block) (relevant : List Nat) (act : Option String)
    (ps ms : List String) (act1 : Option String) (hact : goodCtx act)
    (h : renderRow env apiKey blogName postId blocks relevant act = Except.ok (ps, ms, act1)) :
    goodCtx act1 ∧ sumUl ps = ulInd act1 - ulInd act ∧ sumOl ps = olInd act1 - olInd act := by
  rw [renderRow] at h
  by_cases hlen : relevant.length > 1
  · rw [if_pos hlen] at h
    cases hri : renderIndexed env apiKey blogName postId blocks relevant act with
    | error e => simp only [hri] at h; cases h
    | ok triple =>
      obtain ⟨p1, m1, a1⟩ := triple
      simp only [hri] at h
      injection h with h
      simp only [Prod.mk.injEq] at h
      obtain ⟨hps, hms, ha1⟩ := h
      subst hps; subst hms; subst ha1
      obtain ⟨hg1, hu1, ho1⟩ := renderIndexed_delta env apiKey blogName postId blocks
        relevant act p1 m1 a1 hact hri
      refine ⟨hg1, ?_, ?_⟩
      · rw [sumUl_append, sumUl_append, hu1]
        simp [sumUl, (deltas_divrow_piece relevant.length).1, ulDelta_divclose]
      · rw [sumOl_append, sumOl_append, ho1]
        simp [sumOl, (deltas_divrow_piece relevant.length).2, olDelta_divclose]
  · rw [if_neg hlen] at h
    exact renderIndexed_delta env apiKey blogName postId blocks relevant act ps ms act1 hact h

theorem composeRows_delta (env : PollEnv) (apiKey blogName postId : Option String)
    (blocks : List Block) (idxs : List Nat) (ta : Option Nat) (rows : List RowData) :
    ∀ (act : Option String) (bp ap ms : List String) (act1 : Option String),
    goodCtx act →
    composeRows env apiKey blogName postId blocks idxs ta rows act
      = Except.ok (bp, ap, ms, act1) →
    goodCtx act1 ∧ sumUl bp + sumUl ap = ulInd act1 - ulInd act
      ∧ sumOl bp + sumOl ap = olInd act1 - olInd act := by
  induction rows with
  | nil =>
    intro act bp ap ms act1 hact h
    rw [composeRows] at h
    injection h with h
    simp only [Prod.mk.injEq] at h
    obtain ⟨h1, h2, h3, h4⟩ := h
    subst h1; subst h2; subst h3; subst h4
    exact ⟨hact, by simp [sumUl], by simp [sumOl]⟩
  | cons row rest ih =>
    intro act bp ap ms act1 hact h
    rw [composeRows] at h
    by_cases hrel : row.blocks.filter (fun i => idxs.contains i) = []
    · rw [if_pos hrel] at h
      exact ih act bp ap ms act1 hact h
    · rw [if_neg hrel] at h
      cases hrr : renderRow env apiKey blogName postId blocks
          (row.blocks.filter (fun i => idxs.contains i)) act with
      | error e => simp only [hrr] at h; cases h
      | ok triple =>
        obtain ⟨p1, m1, a1⟩ := triple
        simp only [hrr] at h
        cases hcr : composeRows env apiKey blogName postId blocks idxs ta rest a1 with
        | error e => simp only [hcr] at h; cases h
        | ok quad =>
          obtain ⟨b2, a2p, m2, a2⟩ := quad
          simp only [hcr] at h
          obtain ⟨hg1, hu1, ho1⟩ := renderRow_delta env apiKey blogName postId blocks
            (row.blocks.filter (fun i => idxs.contains i)) act p1 m1 a1 hact hrr
          obtain ⟨hg2, hu2, ho2⟩ := ih a1 b2 a2p m2 a2 hg1 hcr
          by_cases hf : rowFolded ta (row.blocks.filter (fun i => idxs.contains i)) = true
          · rw [if_pos hf] at h
            injection h with h
            simp only [Prod.mk.injEq] at h
            obtain ⟨h1, h2, h3, h4⟩ := h
            subst h1; subst h2; subst h3; subst h4
            refine ⟨hg2, ?_, ?_⟩
            · rw [sumUl_append]; omega
            · rw [sumOl_append]; omega
          · rw [if_neg hf] at h
            injection h with h
            simp only [Prod.mk.injEq] at h
            obtain ⟨h1, h2, h3, h4⟩ := h
            subst h1; subst h2; subst h3; subst h4
            refine ⟨hg2, ?_, ?_⟩
            · rw [sumUl_append]; omega
            · rw [sumOl_append]; omega

theorem composeCall_delta (env : PollEnv) (apiKey : Option String)
    (blocks : List Block) (layouts : List LayoutBlock) (idxs : Option (List Nat))
    (blogName postId : Option String) (bp ap ms : List String) (act1 : Option String)
    (h : composeCall env apiKey blocks layouts idxs blogName postId
          = Except.ok (bp, ap, ms, act1)) :
    goodCtx act1 ∧ sumUl bp + sumUl ap = ulInd act1
      ∧ sumOl bp + sumOl ap = olInd act1 := by
  rw [composeCall] at h
  cases hf : layouts.find? (fun l => l.type == some "rows") with
  | some rl =>
    simp only [hf] at h
    have := composeRows_delta env apiKey blogName postId blocks
      (idxs.getD (List.range blocks.length)) rl.truncate_after rl.display
      none bp ap ms act1 (Or.inl rfl) h
    simpa [ulInd, olInd] using this
  | none =>
    simp only [hf] at h
    cases hri : renderIndexed env apiKey blogName postId blocks
        (idxs.getD (List.range blocks.length)) none with
    | error e => simp only [hri] at h; cases h
    | ok triple =>
      obtain ⟨p1, m1, a1⟩ := triple
      simp only [hri] at h
      injection h with h
      simp only [Prod.mk.injEq] at h
      obtain ⟨h1, h2, h3, h4⟩ := h
      subst h1; subst h2; subst h3; subst h4
      have := renderIndexed_delta env apiKey blogName postId blocks
        (idxs.getD (List.range blocks.length)) none p1 m1 a1 (Or.inl rfl) hri
      refine ⟨this.1, ?_, ?_⟩
      · have h2 := this.2.1; simp [ulInd] at h2 ⊢; simpa [sumUl] using h2
      · have h2 := this.2.2; simp [olInd] at h2 ⊢; simpa [sumOl] using h2

theorem parsePieces_balanced (env : PollEnv) (apiKey : Option String)
    (blocks : List Block) (layouts : List LayoutBlock) (idxs : Option (List Nat))
    (blogName postId : Option String) (tr : List String)
    (h : parsePieces env apiKey blocks layouts idxs blogName postId = Except.ok tr) :
    sumUl tr = 0 ∧ sumOl tr = 0 := by
  rw [parsePieces] at h
  by_cases hb : blocks = []
  · rw [if_pos hb] at h
    injection h with h
    subst h
    exact ⟨by simp [sumUl], by simp [sumOl]⟩
  · rw [if_neg hb] at h
    cases hc : composeCall env apiKey blocks layouts idxs blogName postId with
    | error e => simp only [hc] at h; cases h
    | ok quad =>
      obtain ⟨bp, ap, ms, act⟩ := quad
      simp only [hc] at h
      injection h with h
      subst h
      obtain ⟨hg, hu, ho⟩ := composeCall_delta env apiKey blocks layouts idxs
        blogName postId bp ap ms act hc
      rcases hg with rfl | rfl | rfl
      · constructor
        · rw [sumUl_append, sumUl_append]
          simp [truthyOpt, sumUl, ulInd] at hu ⊢
          omega
        · rw [sumOl_append, sumOl_append]
          simp [truthyOpt, sumOl, olInd] at ho ⊢
          omega
      · constructor
        · rw [sumUl_append, sumUl_append]
          simp [truthyOpt, sumUl, ulInd, ulDelta_ul_close] at hu ⊢
          omega
        · rw [sumOl_append, sumOl_append]
          simp [truthyOpt, sumOl, olInd, olDelta_ul_close] at ho ⊢
          omega
      · constructor
        · rw [sumUl_append, sumUl_append]
          simp [truthyOpt, sumUl, ulInd, ulDelta_ol_close] at hu ⊢
          omega
        · rw [sumOl_append, sumOl_append]
          simp [truthyOpt, sumOl, olInd, olDelta_ol_close] at ho ⊢
          omega
/-- C10: list tags are balanced per layout-composer call: for every call to
`parse_api_content` (its fragment stream `parsePieces`), the signed count of
`<ul>` and of `<ol>` tags over the emitted fragments is zero — every list
element opened in the returned html is closed within the same returned
string — and, since the open-list context starts empty on every call and
never leaks across calls, concatenating the fragment streams of two
independent calls is again balanced. -/
theorem C10_list_tags_balanced (env : PollEnv) (apiKey : Option String)
    (blocks : List Block) (layouts : List LayoutBlock) (idxs : Option (List Nat))
    (blogName postId : Option String) (tr : List String)
    (h : parsePieces env apiKey blocks layouts idxs blogName postId = Except.ok tr) :
    (sumUl tr = 0 ∧ sumOl tr = 0) ∧
    (∀ (env2 : PollEnv) (apiKey2 : Option String) (blocks2 : List Block)
      (layouts2 : List LayoutBlock) (idxs2 : Option (List Nat))
      (blogName2 postId2 : Option String) (tr2 : List String),
      parsePieces env2 apiKey2 blocks2 layouts2 idxs2 blogName2 postId2 = Except.ok tr2 →
      sumUl (tr ++ tr2) = 0 ∧ sumOl (tr ++ tr2) = 0) := by
  obtain ⟨hu, ho⟩ := parsePieces_balanced env apiKey blocks layouts idxs blogName postId tr h
  refine ⟨⟨hu, ho⟩, ?_⟩
  intro env2 apiKey2 blocks2 layouts2 idxs2 blogName2 postId2 tr2 h2
  obtain ⟨hu2, ho2⟩ := parsePieces_balanced env2 apiKey2 blocks2 layouts2 idxs2
    blogName2 postId2 tr2 h2
  exact ⟨by rw [sumUl_append, hu, hu2]; ring, by rw [sumOl_append, ho, ho2]; ring⟩

theorem C10_list_tags_balanced_witness :
    parsePieces dummyEnv none [uliBlock "a"] [] none none none
        = Except.ok ["<ul>\n", "<li>a</li>\n", "</ul>\n"] ∧
    parsePieces dummyEnv none [oliBlock "b"] [] none none none
        = Except.ok ["<ol>\n", "<li>b</li>\n", "</ol>\n"] ∧
    sumUl (["<ul>\n", "<li>a</li>\n", "</ul>\n"] ++ ["<ol>\n", "<li>b</li>\n", "</ol>\n"]) = 0 ∧
    sumOl (["<ul>\n", "<li>a</li>\n", "</ul>\n"] ++ ["<ol>\n", "<li>b</li>\n", "</ol>\n"]) = 0 := by
  have h1 : parsePieces dummyEnv none [uliBlock "a"] [] none none none
      = Except.ok ["<ul>\n", "<li>a</li>\n", "</ul>\n"] := by rfl
  have h2 : parsePieces dummyEnv none [oliBlock "b"] [] none none none
      = Except.ok ["<ol>\n", "<li>b</li>\n", "</ol>\n"] := by rfl
  exact ⟨h1, h2,
    (C10_list_tags_balanced dummyEnv none [uliBlock "a"] [] none none none _ h1).2
      dummyEnv none [oliBlock "b"] [] none none none _ h2⟩
theorem markersAux_bucket {α : Type} (f g : Nat × Span → α) (l : List (Nat × Span)) :
    ∀ (m : Nat → List α) (o : Nat),
    (l.foldl (spanStep f g) m) o
      = ((l.filter (fun p => recognizedType p.2.type && p.2.end_ == o)).reverse.map g)
        ++ m o
        ++ ((l.filter (fun p => recognizedType p.2.type && p.2.start == o)).map f) := by
  induction l with
  | nil => intro m o; simp
  | cons p rest ih =>
    intro m o
    rw [List.foldl_cons, ih]
    by_cases hrec : recognizedType p.2.type = true
    · by_cases hs : p.2.start = o
      · by_cases he : p.2.end_ = o
        · simp [spanStep, hrec, addOpenMark, addCloseMark, hs, he, List.filter_cons]
        · have he' : ¬o = p.2.end_ := fun hx => he hx.symm
          simp [spanStep, hrec, addOpenMark, addCloseMark, hs, he, he', List.filter_cons]
      · by_cases he : p.2.end_ = o
        · have hs' : ¬o = p.2.start := fun hx => hs hx.symm
          simp [spanStep, hrec, addOpenMark, addCloseMark, hs, he, hs', List.filter_cons]
        · have hs' : ¬o = p.2.start := fun hx => hs hx.symm
          have he' : ¬o = p.2.end_ := fun hx => he hx.symm
          simp [spanStep, hrec, addOpenMark, addCloseMark, hs, he, hs', he', List.filter_cons]
    · simp [spanStep, hrec, List.filter_cons]

theorem marksAt_eq (spans : List Span) (o : Nat) :
    marksAt spans o
      = ((spans.enum.filter (fun p => recognizedType p.2.type && p.2.end_ == o)).reverse.map
          (fun p => Mark.cl p.1))
        ++ ((spans.enum.filter (fun p => recognizedType p.2.type && p.2.start == o)).map
          (fun p => Mark.op p.1)) := by
  have h := markersAux_bucket (fun p => Mark.op p.1) (fun p => Mark.cl p.1)
    spans.enum (fun _ => []) o
  simpa [marksAt, markersAux] using h

theorem boundaryList_count_aux (spans : List Span) :
    ∀ (acc : List Nat) (o : Nat),
    (spans.foldl (fun acc s =>
        if recognizedType s.type then acc ++ [s.start, s.end_] else acc) acc).count o
      = acc.count o
        + (spans.filter (fun s => recognizedType s.type && s.start == o)).length
        + (spans.filter (fun s => recognizedType s.type && s.end_ == o)).length := by
  induction spans with
  | nil => intro acc o; simp
  | cons s rest ih =>
    intro acc o
    rw [List.foldl_cons]
    by_cases hrec : recognizedType s.type = true
    · rw [if_pos hrec, ih]
      by_cases hs : s.start = o <;> by_cases he : s.end_ = o <;>
        simp [List.filter_cons, hrec, hs, he, List.count_append, List.count_cons] <;> omega
    · rw [if_neg hrec, ih]
      simp [List.filter_cons, hrec]

theorem count_boundaryList (spans : List Span) (o : Nat) :
    (boundaryList spans).count o
      = (spans.filter (fun s => recognizedType s.type && s.start == o)).length
        + (spans.filter (fun s => recognizedType s.type && s.end_ == o)).length := by
  have h := boundaryList_count_aux spans [] o
  simpa [boundaryList] using h

theorem markerKeys_sorted (spans : List Span) : (markerKeys spans).Sorted (· ≤ ·) :=
  List.sorted_insertionSort _ _

theorem markerKeys_nodup (spans : List Span) : (markerKeys spans).Nodup :=
  ((List.perm_insertionSort _ _).nodup_iff).mpr (List.nodup_dedup _)

theorem mem_markerKeys (spans : List Span) (o : Nat) :
    o ∈ markerKeys spans ↔ o ∈ boundaryList spans := by
  rw [markerKeys, (List.perm_insertionSort _ _).mem_iff, List.mem_dedup]

theorem count_flatMap_mark (ks : List Nat) (f : Nat → List Mark) (a : Mark) :
    ((ks.flatMap f).count a) = (ks.map (fun k => (f k).count a)).sum := by
  induction ks with
  | nil => simp
  | cons k rest ih => simp [List.flatMap_cons, List.count_append, ih]

theorem sum_indicator_one (t : Nat) (f : Nat → Nat)
    (hf : ∀ k, f k = if k = t then 1 else 0) :
    ∀ (ks : List Nat), ks.Nodup → t ∈ ks → (ks.map f).sum = 1 := by
  intro ks
  induction ks with
  | nil => intro _ ht; cases ht
  | cons k rest ih =>
    intro hnd ht
    by_cases hk : k = t
    · subst hk
      have hz : ((rest.map f).sum) = 0 := by
        apply List.sum_eq_zero
        intro x hx
        obtain ⟨y, hy, hyx⟩ := List.mem_map.mp hx
        rw [hf y] at hyx
        rw [if_neg] at hyx
        · exact hyx.symm
        · intro hyk; subst hyk; exact (List.nodup_cons.mp hnd).1 hy
      simp [hf k, hz]
    · have ht' : t ∈ rest := by
        cases ht with
        | head => exact absurd rfl hk
        | tail _ h => exact h
      have hz := ih (List.nodup_cons.mp hnd).2 ht'
      simp [hf k, hk, hz]

theorem count_map_eq_countP {α β : Type} [DecidableEq β] (f : α → β) (l : List α) (b : β) :
    ((l.map f).count b) = l.countP (fun x => f x == b) := by
  induction l with
  | nil => simp
  | cons x rest ih => simp [List.count_cons, List.countP_cons, ih]

theorem enum_key_unique {α : Type} (l : List α) (p q : Nat × α)
    (hp : p ∈ l.enum) (hq : q ∈ l.enum) (h : p.1 = q.1) : p = q := by
  rw [List.mem_enum_iff_getElem?] at hp hq
  rw [h] at hp
  rw [hp] at hq
  obtain ⟨p1, p2⟩ := p
  obtain ⟨q1, q2⟩ := q
  simp at h hq
  simp [h, hq]

theorem filter_start_len (spans : List Span) (o : Nat) :
    (spans.enum.filter (fun q => recognizedType q.2.type && q.2.start == o)).length
      = (spans.filter (fun s => recognizedType s.type && s.start == o)).length := by
  rw [← List.countP_eq_length_filter, ← List.countP_eq_length_filter]
  have h := List.countP_map (fun s => recognizedType s.type && s.start == o)
    Prod.snd spans.enum
  rw [List.enum_map_snd] at h
  exact h.symm

theorem filter_end_len (spans : List Span) (o : Nat) :
    (spans.enum.filter (fun q => recognizedType q.2.type && q.2.end_ == o)).length
      = (spans.filter (fun s => recognizedType s.type && s.end_ == o)).length := by
  rw [← List.countP_eq_length_filter, ← List.countP_eq_length_filter]
  have h := List.countP_map (fun s => recognizedType s.type && s.end_ == o)
    Prod.snd spans.enum
  rw [List.enum_map_snd] at h
  exact h.symm

theorem filter_start_le_one (spans : List Span) (hnd : (boundaryList spans).Nodup) (o : Nat) :
    (spans.enum.filter (fun q => recognizedType q.2.type && q.2.start == o)).length ≤ 1 := by
  have hc := count_boundaryList spans o
  have hle := List.nodup_iff_count_le_one.mp hnd o
  rw [filter_start_len]
  omega

theorem filter_end_le_one (spans : List Span) (hnd : (boundaryList spans).Nodup) (o : Nat) :
    (spans.enum.filter (fun q => recognizedType q.2.type && q.2.end_ == o)).length ≤ 1 := by
  have hc := count_boundaryList spans o
  have hle := List.nodup_iff_count_le_one.mp hnd o
  rw [filter_end_len]
  omega

theorem count_op_marksAt (spans : List Span) (hnd : (boundaryList spans).Nodup)
    (p : Nat × Span) (hp : p ∈ spans.enum) (hrec : recognizedType p.2.type = true) (o : Nat) :
    (marksAt spans o).count (Mark.op p.1) = if o = p.2.start then 1 else 0 := by
  rw [marksAt_eq, List.count_append]
  have hcl : (((spans.enum.filter
      (fun q => recognizedType q.2.type && q.2.end_ == o)).reverse.map
      (fun q => Mark.cl q.1)).count (Mark.op p.1)) = 0 := by
    apply List.count_eq_zero.mpr
    intro hmem
    obtain ⟨q, hq, hqe⟩ := List.mem_map.mp hmem
    cases hqe
  rw [hcl, count_map_eq_countP]
  by_cases ho : o = p.2.start
  · rw [if_pos ho]
    have hpos : 0 < (spans.enum.filter
        (fun q => recognizedType q.2.type && q.2.start == o)).countP
        (fun q => Mark.op q.1 == Mark.op p.1) := by
      apply List.countP_pos_iff.mpr
      exact ⟨p, List.mem_filter.mpr ⟨hp, by simp [hrec, ho]⟩, by simp⟩
    have hle := @List.countP_le_length _
      (fun q => Mark.op q.1 == Mark.op p.1)
      (spans.enum.filter (fun q => recognizedType q.2.type && q.2.start == o))
    have h1 := filter_start_le_one spans hnd o
    omega
  · rw [if_neg ho]
    rw [Nat.zero_add]
    apply List.countP_eq_zero.mpr
    intro q hq hbe
    obtain ⟨hqm, hqp⟩ := List.mem_filter.mp hq
    have hq1 : q.1 = p.1 := by simpa using hbe
    have hqp' := enum_key_unique spans q p hqm hp hq1
    subst hqp'
    simp at hqp
    exact ho hqp.2.symm

theorem count_cl_marksAt (spans : List Span) (hnd : (boundaryList spans).Nodup)
    (p : Nat × Span) (hp : p ∈ spans.enum) (hrec : recognizedType p.2.type = true) (o : Nat) :
    (marksAt spans o).count (Mark.cl p.1) = if o = p.2.end_ then 1 else 0 := by
  rw [marksAt_eq, List.count_append]
  have hop : (((spans.enum.filter
      (fun q => recognizedType q.2.type && q.2.start == o)).map
      (fun q => Mark.op q.1)).count (Mark.cl p.1)) = 0 := by
    apply List.count_eq_zero.mpr
    intro hmem
    obtain ⟨q, hq, hqe⟩ := List.mem_map.mp hmem
    cases hqe
  rw [hop, List.map_reverse, List.count_reverse, count_map_eq_countP]
  by_cases ho : o = p.2.end_
  · rw [if_pos ho]
    have hpos : 0 < (spans.enum.filter
        (fun q => recognizedType q.2.type && q.2.end_ == o)).countP
        (fun q => Mark.cl q.1 == Mark.cl p.1) := by
      apply List.countP_pos_iff.mpr
      exact ⟨p, List.mem_filter.mpr ⟨hp, by simp [hrec, ho]⟩, by simp⟩
    have hle := @List.countP_le_length _
      (fun q => Mark.cl q.1 == Mark.cl p.1)
      (spans.enum.filter (fun q => recognizedType q.2.type && q.2.end_ == o))
    have h1 := filter_end_le_one spans hnd o
    omega
  · rw [if_neg ho]
    rw [Nat.add_zero]
    apply List.countP_eq_zero.mpr
    intro q hq hbe
    obtain ⟨hqm, hqp⟩ := List.mem_filter.mp hq
    have hq1 : q.1 = p.1 := by simpa using hbe
    have hqp' := enum_key_unique spans q p hqm hp hq1
    subst hqp'
    simp at hqp
    exact ho hqp.2.symm

theorem snd_mem_of_mem_enum {α : Type} {l : List α} {p : Nat × α} (hp : p ∈ l.enum) :
    p.2 ∈ l := by
  have h := List.mem_map_of_mem Prod.snd hp
  rwa [List.enum_map_snd] at h

theorem start_mem_boundary (spans : List Span) (p : Nat × Span) (hp : p ∈ spans.enum)
    (hrec : recognizedType p.2.type = true) : p.2.start ∈ boundaryList spans := by
  have hc := count_boundaryList spans p.2.start
  have hmem : p.2 ∈ spans.filter
      (fun s => recognizedType s.type && s.start == p.2.start) :=
    List.mem_filter.mpr ⟨snd_mem_of_mem_enum hp, by simp [hrec]⟩
  have hlen : 0 < (spans.filter
      (fun s => recognizedType s.type && s.start == p.2.start)).length :=
    List.length_pos.mpr (fun hnil => by rw [hnil] at hmem; cases hmem)
  have hcount : 0 < (boundaryList spans).count p.2.start := by omega
  exact List.count_pos_iff.mp hcount

theorem end_mem_boundary (spans : List Span) (p : Nat × Span) (hp : p ∈ spans.enum)
    (hrec : recognizedType p.2.type = true) : p.2.end_ ∈ boundaryList spans := by
  have hc := count_boundaryList spans p.2.end_
  have hmem : p.2 ∈ spans.filter
      (fun s => recognizedType s.type && s.end_ == p.2.end_) :=
    List.mem_filter.mpr ⟨snd_mem_of_mem_enum hp, by simp [hrec]⟩
  have hlen : 0 < (spans.filter
      (fun s => recognizedType s.type && s.end_ == p.2.end_)).length :=
    List.length_pos.mpr (fun hnil => by rw [hnil] at hmem; cases hmem)
  have hcount : 0 < (boundaryList spans).count p.2.end_ := by omega
  exact List.count_pos_iff.mp hcount

theorem count_op_markStream (spans : List Span) (hnd : (boundaryList spans).Nodup)
    (p : Nat × Span) (hp : p ∈ spans.enum) (hrec : recognizedType p.2.type = true) :
    (markStream spans).count (Mark.op p.1) = 1 := by
  rw [markStream, count_flatMap_mark]
  exact sum_indicator_one p.2.start _
    (fun k => count_op_marksAt spans hnd p hp hrec k)
    (markerKeys spans) (markerKeys_nodup spans)
    ((mem_markerKeys spans _).mpr (start_mem_boundary spans p hp hrec))

theorem count_cl_markStream (spans : List Span) (hnd : (boundaryList spans).Nodup)
    (p : Nat × Span) (hp : p ∈ spans.enum) (hrec : recognizedType p.2.type = true) :
    (markStream spans).count (Mark.cl p.1) = 1 := by
  rw [markStream, count_flatMap_mark]
  exact sum_indicator_one p.2.end_ _
    (fun k => count_cl_marksAt spans hnd p hp hrec k)
    (markerKeys spans) (markerKeys_nodup spans)
    ((mem_markerKeys spans _).mpr (end_mem_boundary spans p hp hrec))

theorem sorted_split (s e : Nat) (hse : s < e) :
    ∀ (ks : List Nat), ks.Sorted (· ≤ ·) → s ∈ ks → e ∈ ks →
    ∃ l1 l2, ks = l1 ++ s :: l2 ∧ e ∈ l2 := by
  intro ks
  induction ks with
  | nil => intro _ hs; cases hs
  | cons a rest ih =>
    intro hsort hs he
    by_cases has : a = s
    · subst has
      refine ⟨[], rest, rfl, ?_⟩
      cases he with
      | head => omega
      | tail _ h => exact h
    · have hs' : s ∈ rest := by
        cases hs with
        | head => exact absurd rfl has
        | tail _ h => exact h
      have he' : e ∈ rest := by
        cases he with
        | head =>
          have hle := (List.sorted_cons.mp hsort).1 s hs'
          omega
        | tail _ h => exact h
      obtain ⟨l1, l2, heq, hel⟩ := ih (List.sorted_cons.mp hsort).2 hs' he'
      exact ⟨a :: l1, l2, by rw [heq]; rfl, hel⟩

theorem pair_sublist_markStream (spans : List Span) (hnd : (boundaryList spans).Nodup)
    (p : Nat × Span) (hp : p ∈ spans.enum) (hrec : recognizedType p.2.type = true)
    (hlt : p.2.start < p.2.end_) :
    [Mark.op p.1, Mark.cl p.1].Sublist (markStream spans) := by
  obtain ⟨l1, l2, heq, hel⟩ := sorted_split p.2.start p.2.end_ hlt (markerKeys spans)
    (markerKeys_sorted spans)
    ((mem_markerKeys spans _).mpr (start_mem_boundary spans p hp hrec))
    ((mem_markerKeys spans _).mpr (end_mem_boundary spans p hp hrec))
  rw [markStream, heq]
  rw [show l1 ++ p.2.start :: l2 = (l1 ++ [p.2.start]) ++ l2 by simp]
  rw [List.flatMap_append]
  have h1 : [Mark.op p.1].Sublist ((l1 ++ [p.2.start]).flatMap (marksAt spans)) := by
    rw [List.singleton_sublist, List.flatMap_append]
    apply List.mem_append.mpr
    right
    have hc := count_op_marksAt spans hnd p hp hrec p.2.start
    rw [if_pos rfl] at hc
    have hpos : 0 < (marksAt spans p.2.start).count (Mark.op p.1) := by omega
    have hm := List.count_pos_iff.mp hpos
    simpa [List.flatMap_cons] using hm
  have h2 : [Mark.cl p.1].Sublist (l2.flatMap (marksAt spans)) := by
    rw [List.singleton_sublist]
    apply List.mem_flatMap.mpr
    refine ⟨p.2.end_, hel, ?_⟩
    have hc := count_cl_marksAt spans hnd p hp hrec p.2.end_
    rw [if_pos rfl] at hc
    have hpos : 0 < (marksAt spans p.2.end_).count (Mark.cl p.1) := by omega
    exact List.count_pos_iff.mp hpos
  exact List.Sublist.append h1 h2

theorem closesAt_eq (spans : List Span) (o : Nat) :
    closesAt spans o
      = ((spans.enum.filter
          (fun q => recognizedType q.2.type && q.2.end_ == o)).reverse.map (fun q => q.1)) := by
  have hcl : ∀ (l : List (Nat × Span)),
      List.filterMap ((fun m =>
        match m with
        | Mark.cl i => some i
        | Mark.op _ => none) ∘ fun p => Mark.cl p.1) l = l.map (fun q => q.1) := by
    intro l
    induction l with
    | nil => rfl
    | cons a rest ih => simp [List.filterMap_cons, ih]
  have hop : ∀ (l : List (Nat × Span)),
      List.filterMap ((fun m =>
        match m with
        | Mark.cl i => some i
        | Mark.op _ => none) ∘ fun p => Mark.op p.1) l = [] := by
    intro l
    induction l with
    | nil => rfl
    | cons a rest ih => simp [List.filterMap_cons, ih]
  rw [closesAt, marksAt_eq, List.filterMap_append, List.filterMap_map, List.filterMap_map,
    hcl, hop]
  simp

theorem pairwise_of_length_le_one {α : Type} (r : α → α → Prop) (l : List α)
    (h : l.length ≤ 1) : l.Pairwise r := by
  cases l with
  | nil => exact List.Pairwise.nil
  | cons a rest =>
    cases rest with
    | nil => simp
    | cons b r2 => simp at h

/-- C1: span-formatter tag nesting.  For spans whose boundary offsets are
pairwise distinct (non-overlapping-at-boundaries) and non-degenerate
(`start < end`), the emitted marker stream is well-formed: each recognized
span's open marker is emitted exactly once, its close marker exactly once,
the open strictly before the close, and at every offset the closes emitted
there satisfy the LIFO stack discipline with respect to the positions of
their matching opens. -/
theorem C1_span_formatter_nesting (spans : List Span)
    (hnd : (boundaryList spans).Nodup)
    (hlt : ∀ p ∈ spans.enum, recognizedType p.2.type = true → p.2.start < p.2.end_) :
    (∀ p ∈ spans.enum, recognizedType p.2.type = true →
      [Mark.op p.1, Mark.cl p.1].Sublist (markStream spans)
      ∧ (markStream spans).count (Mark.op p.1) = 1
      ∧ (markStream spans).count (Mark.cl p.1) = 1)
    ∧ (∀ o : Nat, lifoAt spans o) := by
  constructor
  · intro p hp hrec
    exact ⟨pair_sublist_markStream spans hnd p hp hrec (hlt p hp hrec),
      count_op_markStream spans hnd p hp hrec,
      count_cl_markStream spans hnd p hp hrec⟩
  · intro o
    rw [lifoAt]
    apply pairwise_of_length_le_one
    rw [List.length_map, closesAt_eq, List.length_map, List.length_reverse]
    exact filter_end_le_one spans hnd o

theorem C1_span_formatter_nesting_witness :
    (boundaryList [spanBold05, spanItalic28]).Nodup
    ∧ [Mark.op 0, Mark.cl 0].Sublist (markStream [spanBold05, spanItalic28])
    ∧ (markStream [spanBold05, spanItalic28]).count (Mark.op 1) = 1
    ∧ lifoAt [spanBold05, spanItalic28] 5 := by
  have hnd : (boundaryList [spanBold05, spanItalic28]).Nodup := by decide
  have h := C1_span_formatter_nesting [spanBold05, spanItalic28] hnd (by decide)
  have h0 := h.1 (0, spanBold05) (by decide) (by decide)
  have h1 := h.1 (1, spanItalic28) (by decide) (by decide)
  exact ⟨hnd, h0.1, h1.2.1, h.2 5⟩
